import Mathlib

/-!
Verification development for the cpm-emulator repository (a CP/M 2.2
personality running 8080/Z80 guest binaries against a host filesystem).

The definitions below are a shallow embedding of the TypeScript source:
guest memory is a function from addresses to byte values (writes reduce
the stored value mod 256 and ignore out-of-range addresses, modelling
Uint8Array semantics), the FCB accessors mirror the getters and setters
of class Fcb, and the BDOS/CBIOS dispatchers mirror handleBdosCall and
handleCbiosCall, with host syscall outcomes supplied by a Host record.
-/

namespace CpmEmu

/-! ## Constants from the source -/

def LOAD_ADDRESS : Nat := 0x0100
def CPM_CALL_ADDRESS : Nat := 0x0005
def RECORD_SIZE : Nat := 128
def DEFAULT_DMA : Nat := 0x0080
def FCB1_ADDRESS : Nat := 0x005C
def FCB2_ADDRESS : Nat := 0x006C
def BDOS_ADDRESS : Nat := 0xFE00
def CBIOS_ADDRESS : Nat := 0xFF00
def CBIOS_ENTRY_POINT_COUNT : Nat := 17
def FD_SIGNATURE : Nat := 0xBEEF
def MEM_SIZE : Nat := 65536

/-! ## Guest memory: a 64 KiB Uint8Array, modelled as a function.
A write stores the value mod 256; writes at out-of-range indices are
dropped, as JavaScript typed arrays do. -/

def wr (m : Nat → Nat) (addr v : Nat) : Nat → Nat :=
  fun a => if addr < MEM_SIZE ∧ a = addr then v % 256 else m a

/-- Models TypedArray.prototype.fill over the half-open range. -/
def fillMem (m : Nat → Nat) (v lo hi : Nat) : Nat → Nat :=
  fun a => if lo ≤ a ∧ a < hi ∧ a < MEM_SIZE then v % 256 else m a

/-- A running for-loop of byte writes at consecutive addresses. -/
def copyBytes (m : Nat → Nat) (base : Nat) : List Nat → (Nat → Nat)
  | [] => m
  | b :: rest => copyBytes (wr m base b) (base + 1) rest

/-- Models fs.readSync copying cnt bytes of file, starting at file offset
pos, into guest memory at dst. -/
def readIntoMem (m : Nat → Nat) (file : List Nat) (dst pos cnt : Nat) : Nat → Nat :=
  fun a => if dst ≤ a ∧ a < dst + cnt ∧ a < MEM_SIZE
           then (file.getD (pos + (a - dst)) 0) % 256 else m a

theorem wr_at (m : Nat → Nat) (addr v : Nat) (h : addr < MEM_SIZE) :
    wr m addr v addr = v % 256 := by
  simp [wr, h]

theorem wr_ne (m : Nat → Nat) (addr v a : Nat) (h : a ≠ addr) :
    wr m addr v a = m a := by
  simp [wr, h]

theorem copyBytes_eq (bytes : List Nat) : ∀ (m : Nat → Nat) (base a : Nat),
    copyBytes m base bytes a =
      if base ≤ a ∧ a < base + bytes.length ∧ a < MEM_SIZE
      then (bytes.getD (a - base) 0) % 256 else m a := by
  induction bytes with
  | nil =>
    intro m base a
    simp only [copyBytes, List.length_nil, Nat.add_zero]
    have hne : ¬ (base ≤ a ∧ a < base ∧ a < MEM_SIZE) := by omega
    rw [if_neg hne]
  | cons b rest ih =>
    intro m base a
    show copyBytes (wr m base b) (base + 1) rest a = _
    rw [ih]
    rcases Nat.lt_trichotomy a base with hlt | heq | hgt
    · have h1 : ¬ (base + 1 ≤ a) := by omega
      have h2 : ¬ (base ≤ a) := by omega
      simp only [h1, h2, false_and, if_false]
      rw [wr_ne _ _ _ _ (by omega)]
    · subst heq
      have h1 : ¬ (a + 1 ≤ a) := by omega
      simp only [h1, false_and, if_false, wr]
      by_cases hm : a < MEM_SIZE
      · have hc : a ≤ a ∧ a < a + (b :: rest).length ∧ a < MEM_SIZE := by
          refine ⟨Nat.le_refl a, ?_, hm⟩
          simp only [List.length_cons]
          omega
        rw [if_pos ⟨hm, trivial⟩, if_pos hc]
        simp
      · have hc : ¬ (a ≤ a ∧ a < a + (b :: rest).length ∧ a < MEM_SIZE) := by
          intro hx
          exact hm hx.2.2
        rw [if_neg hc, if_neg (by simp [hm])]
    · have h2 : base ≤ a := by omega
      have h3 : base + 1 ≤ a := by omega
      have harith : a - base = (a - (base + 1)) + 1 := by omega
      simp only [h2, h3, true_and, List.length_cons, harith, List.getD_cons_succ]
      have hiff : a < base + 1 + rest.length ↔ a < base + (rest.length + 1) := by omega
      by_cases hin : a < base + 1 + rest.length ∧ a < MEM_SIZE
      · simp only [hin.1, hin.2, and_true, if_true, hiff.mp hin.1, if_true]
      · have : ¬ (a < base + (rest.length + 1) ∧ a < MEM_SIZE) := by
          intro hc
          exact hin ⟨by omega, hc.2⟩
        simp only [if_neg hin, if_neg this]
        rw [wr_ne _ _ _ _ (by omega)]

/-! ## Bitwise bridge lemmas: the source manipulates fields with
or/and/shift; these rewrite those to plain arithmetic. -/

theorem lor2_eq_add (lo hi : Nat) (h : lo < 256) :
    lo ||| (hi <<< 8) = lo + hi * 256 := by
  have h8 : lo < 2 ^ 8 := lt_of_lt_of_le h (by norm_num)
  have key := (Nat.mul_add_lt_is_or h8 hi).symm
  calc lo ||| (hi <<< 8) = lo ||| hi * 2 ^ 8 := by rw [Nat.shiftLeft_eq]
    _ = 2 ^ 8 * hi ||| lo := by rw [Nat.lor_comm, Nat.mul_comm]
    _ = 2 ^ 8 * hi + lo := key
    _ = lo + hi * 256 := by
        have e : (2 : Nat) ^ 8 = 256 := by norm_num
        rw [e]
        omega

theorem lor3_eq_add (cr ex s2 : Nat) (h1 : cr < 128) (h2 : ex < 32) :
    cr ||| (ex <<< 7) ||| (s2 <<< 12) = cr + ex * 128 + s2 * 4096 := by
  have e7 : (2 : Nat) ^ 7 = 128 := by norm_num
  have e12 : (2 : Nat) ^ 12 = 4096 := by norm_num
  have h7 : cr < 2 ^ 7 := lt_of_lt_of_le h1 (by norm_num)
  have keyA := (Nat.mul_add_lt_is_or h7 ex).symm
  have h12 : 2 ^ 7 * ex + cr < 2 ^ 12 := by
    rw [e7, e12]
    omega
  have keyB := (Nat.mul_add_lt_is_or h12 s2).symm
  calc cr ||| (ex <<< 7) ||| (s2 <<< 12)
      = (cr ||| ex * 2 ^ 7) ||| s2 * 2 ^ 12 := by rw [Nat.shiftLeft_eq, Nat.shiftLeft_eq]
    _ = (2 ^ 7 * ex ||| cr) ||| s2 * 2 ^ 12 := by rw [Nat.lor_comm cr, Nat.mul_comm]
    _ = (2 ^ 7 * ex + cr) ||| s2 * 2 ^ 12 := by rw [keyA]
    _ = 2 ^ 12 * s2 ||| (2 ^ 7 * ex + cr) := by rw [Nat.lor_comm, Nat.mul_comm]
    _ = 2 ^ 12 * s2 + (2 ^ 7 * ex + cr) := keyB
    _ = cr + ex * 128 + s2 * 4096 := by
        rw [e7, e12]
        omega

theorem and_255 (n : Nat) : n &&& 255 = n % 256 := by
  have h := Nat.and_pow_two_sub_one_eq_mod n 8
  norm_num at h
  exact h

theorem and_127 (n : Nat) : n &&& 127 = n % 128 := by
  have h := Nat.and_pow_two_sub_one_eq_mod n 7
  norm_num at h
  exact h

theorem and_31 (n : Nat) : n &&& 31 = n % 32 := by
  have h := Nat.and_pow_two_sub_one_eq_mod n 5
  norm_num at h
  exact h

theorem shiftRight7 (n : Nat) : n >>> 7 = n / 128 := by
  rw [Nat.shiftRight_eq_div_pow]

theorem shiftRight8 (n : Nat) : n >>> 8 = n / 256 := by
  rw [Nat.shiftRight_eq_div_pow]

theorem shiftRight12 (n : Nat) : n >>> 12 = n / 4096 := by
  rw [Nat.shiftRight_eq_div_pow]

theorem xor_lt_65536 (a b : Nat) (ha : a < 65536) (hb : b < 65536) :
    a ^^^ b < 65536 := by
  have h : (65536 : Nat) = 2 ^ 16 := by norm_num
  rw [h] at ha hb ⊢
  exact Nat.xor_lt_two_pow ha hb

/-! ## The FCB view: accessors on a 36-byte window of guest memory at
base address de, mirroring class Fcb. -/

/-- FCB drive byte (offset 0). -/
def fcbDrive (m : Nat → Nat) (de : Nat) : Nat := m de

/-- FCB current-extent byte ex (offset 0x0C). -/
def fcbEx (m : Nat → Nat) (de : Nat) : Nat := m (de + 0x0C)

/-- FCB s2 byte (offset 0x0E). -/
def fcbS2 (m : Nat → Nat) (de : Nat) : Nat := m (de + 0x0E)

/-- FCB current-record byte cr (offset 0x20). -/
def fcbCr (m : Nat → Nat) (de : Nat) : Nat := m (de + 0x20)

/-- The raw computed current-record value cr OR (ex shl 7) OR (s2 shl 12),
as in the body of the currentRecord getter. -/
def fcbCurrentRecordValue (m : Nat → Nat) (de : Nat) : Nat :=
  fcbCr m de ||| (fcbEx m de <<< 7) ||| (fcbS2 m de <<< 12)

/-- The currentRecord getter: validity guard (throwing, modelled as none)
followed by the raw value. -/
def fcbGetCurrentRecord (m : Nat → Nat) (de : Nat) : Option Nat :=
  if fcbCr m de > 127 ∨ fcbEx m de > 31 ∨ fcbS2 m de > 16 ∨
     (fcbS2 m de = 16 ∧ (fcbCr m de ≠ 0 ∨ fcbEx m de ≠ 0))
  then none
  else some (fcbCurrentRecordValue m de)

/-- The currentRecord setter: cr := n AND 0x7F; ex := (n shr 7) AND 0x1F;
s2 := n shr 12, written through to memory in that order. -/
def fcbSetCurrentRecord (m : Nat → Nat) (de n : Nat) : Nat → Nat :=
  wr (wr (wr m (de + 0x20) (n &&& 0x7F)) (de + 0x0C) ((n >>> 7) &&& 0x1F))
     (de + 0x0E) (n >>> 12)

/-- The randomRecord getter: r0 OR (r1 shl 8) from offsets 0x21, 0x22. -/
def fcbGetRandomRecord (m : Nat → Nat) (de : Nat) : Nat :=
  m (de + 0x21) ||| (m (de + 0x22) <<< 8)

/-- The randomRecord setter: low byte, high byte, and the overflow flag
byte (1 iff n > 0xFFFF) at offsets 0x21..0x23. -/
def fcbSetRandomRecord (m : Nat → Nat) (de n : Nat) : Nat → Nat :=
  wr (wr (wr m (de + 0x21) (n &&& 0xFF)) (de + 0x22) ((n >>> 8) &&& 0xFF))
     (de + 0x23) (if n > 0xFFFF then 1 else 0)

/-- The fd getter: two little-endian words at offsets 0x10..0x13; the
signature check n1 XOR 0xBEEF == n2 must hold, else fatal (none). -/
def fcbGetFd (m : Nat → Nat) (de : Nat) : Option Nat :=
  let n1 := m (de + 0x10) ||| (m (de + 0x11) <<< 8)
  let n2 := m (de + 0x12) ||| (m (de + 0x13) <<< 8)
  if (n1 ^^^ FD_SIGNATURE) ≠ n2 then none else some n1

/-- The fd setter: stores n little-endian at 0x10..0x11 and
n XOR 0xBEEF little-endian at 0x12..0x13. -/
def fcbSetFd (m : Nat → Nat) (de n : Nat) : Nat → Nat :=
  let m1 := wr m (de + 0x10) (n &&& 0xFF)
  let m2 := wr m1 (de + 0x11) ((n >>> 8) &&& 0xFF)
  let k := n ^^^ FD_SIGNATURE
  let m3 := wr m2 (de + 0x12) (k &&& 0xFF)
  wr m3 (de + 0x13) ((k >>> 8) &&& 0xFF)

/-- Fcb.clear: s2 := 0 then fd := 0. -/
def fcbClear (m : Nat → Nat) (de : Nat) : Nat → Nat :=
  fcbSetFd (wr m (de + 0x0E) 0) de 0

/-- Fcb.blankOut: drive byte 0 then eleven 0x20 bytes. -/
def blankOutFcb (m : Nat → Nat) (addr : Nat) : Nat → Nat :=
  copyBytes m addr (0 :: List.replicate 11 0x20)

/-! ### Pointwise facts about the FCB setters -/

theorem fcbSetCurrentRecord_cr (m : Nat → Nat) (de n : Nat) (h : de + 36 ≤ MEM_SIZE) :
    fcbSetCurrentRecord m de n (de + 0x20) = n % 128 := by
  unfold fcbSetCurrentRecord
  rw [wr_ne _ _ _ _ (by omega), wr_ne _ _ _ _ (by omega), wr_at _ _ _ (by omega), and_127]
  omega

theorem fcbSetCurrentRecord_ex (m : Nat → Nat) (de n : Nat) (h : de + 36 ≤ MEM_SIZE) :
    fcbSetCurrentRecord m de n (de + 0x0C) = n / 128 % 32 := by
  unfold fcbSetCurrentRecord
  rw [wr_ne _ _ _ _ (by omega), wr_at _ _ _ (by omega), shiftRight7, and_31]
  omega

theorem fcbSetCurrentRecord_s2 (m : Nat → Nat) (de n : Nat) (h : de + 36 ≤ MEM_SIZE) :
    fcbSetCurrentRecord m de n (de + 0x0E) = n / 4096 % 256 := by
  unfold fcbSetCurrentRecord
  rw [wr_at _ _ _ (by omega), shiftRight12]

theorem fcbSetCurrentRecord_other (m : Nat → Nat) (de n a : Nat)
    (h1 : a ≠ de + 0x20) (h2 : a ≠ de + 0x0C) (h3 : a ≠ de + 0x0E) :
    fcbSetCurrentRecord m de n a = m a := by
  unfold fcbSetCurrentRecord
  rw [wr_ne _ _ _ _ h3, wr_ne _ _ _ _ h2, wr_ne _ _ _ _ h1]

/-- Reading back the raw current-record value after the setter gives n,
for any n below 2 to the 20. -/
theorem fcbSetCurrentRecord_roundtrip (m : Nat → Nat) (de n : Nat)
    (h : de + 36 ≤ MEM_SIZE) (hn : n < 1048576) :
    fcbCurrentRecordValue (fcbSetCurrentRecord m de n) de = n := by
  unfold fcbCurrentRecordValue fcbCr fcbEx fcbS2
  rw [fcbSetCurrentRecord_cr _ _ _ h, fcbSetCurrentRecord_ex _ _ _ h,
      fcbSetCurrentRecord_s2 _ _ _ h]
  rw [lor3_eq_add _ _ _ (by omega) (by omega)]
  omega

/-- After the setter with a value of at most 65536, the guard in the
getter passes and the getter returns exactly that value. -/
theorem fcbSetCurrentRecord_get (m : Nat → Nat) (de n : Nat)
    (h : de + 36 ≤ MEM_SIZE) (hn : n ≤ 65536) :
    fcbGetCurrentRecord (fcbSetCurrentRecord m de n) de = some n := by
  have hcr := fcbSetCurrentRecord_cr m de n h
  have hex := fcbSetCurrentRecord_ex m de n h
  have hs2 := fcbSetCurrentRecord_s2 m de n h
  unfold fcbGetCurrentRecord
  rw [if_neg]
  · rw [fcbSetCurrentRecord_roundtrip m de n h (by omega)]
  · unfold fcbCr fcbEx fcbS2
    rw [hcr, hex, hs2]
    push_neg
    refine ⟨by omega, by omega, by omega, ?_⟩
    intro hs
    constructor
    · omega
    · omega

/-- After the setter with the value 65537 (sequential increment past
record 65536) the stored triple is cr=1, ex=0, s2=16, which the getter
rejects. -/
theorem fcbSetCurrentRecord_invalid (m : Nat → Nat) (de : Nat)
    (h : de + 36 ≤ MEM_SIZE) :
    fcbCr (fcbSetCurrentRecord m de 65537) de = 1 ∧
    fcbEx (fcbSetCurrentRecord m de 65537) de = 0 ∧
    fcbS2 (fcbSetCurrentRecord m de 65537) de = 16 ∧
    fcbGetCurrentRecord (fcbSetCurrentRecord m de 65537) de = none := by
  have hcr := fcbSetCurrentRecord_cr m de 65537 h
  have hex := fcbSetCurrentRecord_ex m de 65537 h
  have hs2 := fcbSetCurrentRecord_s2 m de 65537 h
  norm_num at hcr hex hs2
  have hcrv : fcbCr (fcbSetCurrentRecord m de 65537) de = 1 := hcr
  have hexv : fcbEx (fcbSetCurrentRecord m de 65537) de = 0 := hex
  have hs2v : fcbS2 (fcbSetCurrentRecord m de 65537) de = 16 := hs2
  refine ⟨hcrv, hexv, hs2v, ?_⟩
  unfold fcbGetCurrentRecord
  rw [if_pos]
  right
  right
  right
  rw [hcrv, hs2v]
  exact ⟨rfl, Or.inl (by omega)⟩

/-! ### Pointwise facts about the fd setter and getter -/

theorem fcbSetFd_bytes (m : Nat → Nat) (de n : Nat) (h : de + 36 ≤ MEM_SIZE) :
    fcbSetFd m de n (de + 0x10) = n % 256 ∧
    fcbSetFd m de n (de + 0x11) = n / 256 % 256 ∧
    fcbSetFd m de n (de + 0x12) = (n ^^^ FD_SIGNATURE) % 256 ∧
    fcbSetFd m de n (de + 0x13) = (n ^^^ FD_SIGNATURE) / 256 % 256 := by
  unfold fcbSetFd
  refine ⟨?_, ?_, ?_, ?_⟩
  · rw [wr_ne _ _ _ _ (by omega), wr_ne _ _ _ _ (by omega), wr_ne _ _ _ _ (by omega),
        wr_at _ _ _ (by omega), and_255]
    omega
  · rw [wr_ne _ _ _ _ (by omega), wr_ne _ _ _ _ (by omega),
        wr_at _ _ _ (by omega), shiftRight8, and_255]
    omega
  · rw [wr_ne _ _ _ _ (by omega), wr_at _ _ _ (by omega), and_255]
    omega
  · rw [wr_at _ _ _ (by omega), shiftRight8, and_255]
    omega

theorem fcbSetFd_other (m : Nat → Nat) (de n a : Nat)
    (h1 : a ≠ de + 0x10) (h2 : a ≠ de + 0x11) (h3 : a ≠ de + 0x12) (h4 : a ≠ de + 0x13) :
    fcbSetFd m de n a = m a := by
  unfold fcbSetFd
  rw [wr_ne _ _ _ _ h4, wr_ne _ _ _ _ h3, wr_ne _ _ _ _ h2, wr_ne _ _ _ _ h1]

/-- Reading the fd back after the setter returns the stored value, for
fd values below 2 to the 16. -/
theorem fcbSetFd_get (m : Nat → Nat) (de n : Nat)
    (h : de + 36 ≤ MEM_SIZE) (hn : n < 65536) :
    fcbGetFd (fcbSetFd m de n) de = some n := by
  obtain ⟨hb0, hb1, hb2, hb3⟩ := fcbSetFd_bytes m de n h
  have hsig : FD_SIGNATURE < 65536 := by norm_num [FD_SIGNATURE]
  have hxlt : n ^^^ FD_SIGNATURE < 65536 := xor_lt_65536 _ _ hn hsig
  unfold fcbGetFd
  simp only [hb0, hb1, hb2, hb3]
  rw [lor2_eq_add _ _ (by omega), lor2_eq_add _ _ (by omega)]
  have e1 : n % 256 + n / 256 % 256 * 256 = n := by omega
  have e2 : (n ^^^ FD_SIGNATURE) % 256 + (n ^^^ FD_SIGNATURE) / 256 % 256 * 256
      = n ^^^ FD_SIGNATURE := by omega
  rw [e1, e2, if_neg]
  simp

theorem fcbClear_getFd (m : Nat → Nat) (de : Nat) (h : de + 36 ≤ MEM_SIZE) :
    fcbGetFd (fcbClear m de) de = some 0 := by
  unfold fcbClear
  exact fcbSetFd_get _ _ _ h (by norm_num)

/-- C3: the FCB currentRecord encoding round-trips: for every valid
(cr, ex, s2) triple (cr under 128, ex under 32, s2 at most 16, and if
s2 is 16 then cr and ex are 0), reading currentRecord gives
cr OR (ex shl 7) OR (s2 shl 12), and writing that value back restores the
same triple; for every invalid triple (in particular cr = 128) reading
currentRecord is a fatal error (none) rather than returning a value. -/
theorem currentRecord_roundtrip_spec (m : Nat → Nat) (de cr ex s2 : Nat)
    (hcr : m (de + 0x20) = cr) (hex : m (de + 0x0C) = ex) (hs2 : m (de + 0x0E) = s2)
    (hde : de + 36 ≤ MEM_SIZE) :
    ((cr < 128 ∧ ex < 32 ∧ s2 ≤ 16 ∧ (s2 = 16 → cr = 0 ∧ ex = 0)) →
      fcbGetCurrentRecord m de = some (cr ||| (ex <<< 7) ||| (s2 <<< 12)) ∧
      fcbSetCurrentRecord m de (cr ||| (ex <<< 7) ||| (s2 <<< 12)) (de + 0x20) = cr ∧
      fcbSetCurrentRecord m de (cr ||| (ex <<< 7) ||| (s2 <<< 12)) (de + 0x0C) = ex ∧
      fcbSetCurrentRecord m de (cr ||| (ex <<< 7) ||| (s2 <<< 12)) (de + 0x0E) = s2) ∧
    (¬ (cr < 128 ∧ ex < 32 ∧ s2 ≤ 16 ∧ (s2 = 16 → cr = 0 ∧ ex = 0)) →
      fcbGetCurrentRecord m de = none) := by
  have hcrv : fcbCr m de = cr := hcr
  have hexv : fcbEx m de = ex := hex
  have hs2v : fcbS2 m de = s2 := hs2
  constructor
  · intro hvalid
    obtain ⟨h1, h2, h3, h4⟩ := hvalid
    have hval : cr ||| (ex <<< 7) ||| (s2 <<< 12) = cr + ex * 128 + s2 * 4096 :=
      lor3_eq_add cr ex s2 h1 h2
    refine ⟨?_, ?_, ?_, ?_⟩
    · unfold fcbGetCurrentRecord
      rw [if_neg]
      · unfold fcbCurrentRecordValue
        rw [hcrv, hexv, hs2v]
      · rw [hcrv, hexv, hs2v]
        push_neg
        refine ⟨by omega, by omega, by omega, fun hs => ⟨(h4 hs).1, (h4 hs).2⟩⟩
    · rw [fcbSetCurrentRecord_cr _ _ _ hde, hval]
      omega
    · rw [fcbSetCurrentRecord_ex _ _ _ hde, hval]
      omega
    · rw [fcbSetCurrentRecord_s2 _ _ _ hde, hval]
      rcases h3.lt_or_eq with hlt | heq
      · omega
      · have := h4 heq
        omega
  · intro hinvalid
    unfold fcbGetCurrentRecord
    rw [if_pos]
    rw [hcrv, hexv, hs2v]
    by_contra hguard
    push_neg at hguard
    exact hinvalid (by omega)

/-- Witness for C3 at a concrete valid triple (cr=5, ex=2, s2=1) stored
in an FCB at address 0x200, and concretely checking the invalid branch
is about the same memory. -/
theorem currentRecord_roundtrip_spec_witness :
    ((5 < 128 ∧ 2 < 32 ∧ 1 ≤ 16 ∧ ((1:Nat) = 16 → (5:Nat) = 0 ∧ (2:Nat) = 0)) →
      fcbGetCurrentRecord (wr (wr (wr (fun _ => 0) (0x200 + 0x20) 5) (0x200 + 0x0C) 2) (0x200 + 0x0E) 1) 0x200 = some (5 ||| (2 <<< 7) ||| (1 <<< 12)) ∧
      fcbSetCurrentRecord (wr (wr (wr (fun _ => 0) (0x200 + 0x20) 5) (0x200 + 0x0C) 2) (0x200 + 0x0E) 1) 0x200 (5 ||| (2 <<< 7) ||| (1 <<< 12)) (0x200 + 0x20) = 5 ∧
      fcbSetCurrentRecord (wr (wr (wr (fun _ => 0) (0x200 + 0x20) 5) (0x200 + 0x0C) 2) (0x200 + 0x0E) 1) 0x200 (5 ||| (2 <<< 7) ||| (1 <<< 12)) (0x200 + 0x0C) = 2 ∧
      fcbSetCurrentRecord (wr (wr (wr (fun _ => 0) (0x200 + 0x20) 5) (0x200 + 0x0C) 2) (0x200 + 0x0E) 1) 0x200 (5 ||| (2 <<< 7) ||| (1 <<< 12)) (0x200 + 0x0E) = 1) ∧
    (¬ (5 < 128 ∧ 2 < 32 ∧ 1 ≤ 16 ∧ ((1:Nat) = 16 → (5:Nat) = 0 ∧ (2:Nat) = 0)) →
      fcbGetCurrentRecord (wr (wr (wr (fun _ => 0) (0x200 + 0x20) 5) (0x200 + 0x0C) 2) (0x200 + 0x0E) 1) 0x200 = none) :=
  currentRecord_roundtrip_spec _ 0x200 5 2 1 (by decide) (by decide) (by decide) (by decide)

/-- C4: the fd stored in FCB bytes 16..19 obeys the signature scheme:
writing fd = n stores little-endian words n1 = n and n2 = n XOR 0xBEEF,
and reading fd returns n1 when n1 XOR 0xBEEF equals n2; a cleared
(fresh/unopened) FCB reads back fd = 0; reading fd from any byte
pattern violating the signature is fatal (none, "invalid FD"). -/
theorem fd_signature_spec (m : Nat → Nat) (de n : Nat)
    (hde : de + 36 ≤ MEM_SIZE) (hn : n < 65536) :
    (fcbSetFd m de n (de + 0x10) ||| (fcbSetFd m de n (de + 0x11) <<< 8) = n ∧
     fcbSetFd m de n (de + 0x12) ||| (fcbSetFd m de n (de + 0x13) <<< 8) = n ^^^ FD_SIGNATURE ∧
     fcbGetFd (fcbSetFd m de n) de = some n) ∧
    fcbGetFd (fcbClear m de) de = some 0 ∧
    ((m (de + 0x10) ||| (m (de + 0x11) <<< 8)) ^^^ FD_SIGNATURE
        = m (de + 0x12) ||| (m (de + 0x13) <<< 8) →
      fcbGetFd m de = some (m (de + 0x10) ||| (m (de + 0x11) <<< 8))) ∧
    ((m (de + 0x10) ||| (m (de + 0x11) <<< 8)) ^^^ FD_SIGNATURE
        ≠ m (de + 0x12) ||| (m (de + 0x13) <<< 8) →
      fcbGetFd m de = none) := by
  obtain ⟨hb0, hb1, hb2, hb3⟩ := fcbSetFd_bytes m de n hde
  have hsig : FD_SIGNATURE < 65536 := by norm_num [FD_SIGNATURE]
  have hxlt : n ^^^ FD_SIGNATURE < 65536 := xor_lt_65536 _ _ hn hsig
  refine ⟨⟨?_, ?_, fcbSetFd_get m de n hde hn⟩, fcbClear_getFd m de hde, ?_, ?_⟩
  · rw [hb0, hb1, lor2_eq_add _ _ (by omega)]
    omega
  · rw [hb2, hb3, lor2_eq_add _ _ (by omega)]
    omega
  · intro hok
    unfold fcbGetFd
    rw [if_neg]
    simp only [ne_eq, not_not]
    exact hok
  · intro hbad
    unfold fcbGetFd
    rw [if_pos hbad]

/-- Witness for C4 with fd = 7 stored in an FCB at address 0x300 over
zeroed memory. -/
theorem fd_signature_spec_witness :
    (fcbSetFd (fun _ => 0) 0x300 7 (0x300 + 0x10) ||| (fcbSetFd (fun _ => 0) 0x300 7 (0x300 + 0x11) <<< 8) = 7 ∧
     fcbSetFd (fun _ => 0) 0x300 7 (0x300 + 0x12) ||| (fcbSetFd (fun _ => 0) 0x300 7 (0x300 + 0x13) <<< 8) = 7 ^^^ FD_SIGNATURE ∧
     fcbGetFd (fcbSetFd (fun _ => 0) 0x300 7) 0x300 = some 7) ∧
    fcbGetFd (fcbClear (fun _ => 0) 0x300) 0x300 = some 0 ∧
    (((fun (_ : Nat) => (0:Nat)) (0x300 + 0x10) ||| ((fun (_ : Nat) => (0:Nat)) (0x300 + 0x11) <<< 8)) ^^^ FD_SIGNATURE
        = (fun (_ : Nat) => (0:Nat)) (0x300 + 0x12) ||| ((fun (_ : Nat) => (0:Nat)) (0x300 + 0x13) <<< 8) →
      fcbGetFd (fun _ => 0) 0x300 = some ((fun (_ : Nat) => (0:Nat)) (0x300 + 0x10) ||| ((fun (_ : Nat) => (0:Nat)) (0x300 + 0x11) <<< 8))) ∧
    (((fun (_ : Nat) => (0:Nat)) (0x300 + 0x10) ||| ((fun (_ : Nat) => (0:Nat)) (0x300 + 0x11) <<< 8)) ^^^ FD_SIGNATURE
        ≠ (fun (_ : Nat) => (0:Nat)) (0x300 + 0x12) ||| ((fun (_ : Nat) => (0:Nat)) (0x300 + 0x13) <<< 8) →
      fcbGetFd (fun _ => 0) 0x300 = none) :=
  fd_signature_spec (fun _ => 0) 0x300 7 (by decide) (by decide)

/-! ## The constructor: program image copy plus boot byte patterns. -/

/-- The loop writing a RET byte at each of the k CBIOS jump-table slots. -/
def cbiosRets (m : Nat → Nat) : Nat → (Nat → Nat)
  | 0 => m
  | k + 1 => wr (cbiosRets m k) (CBIOS_ADDRESS + k * 3) 0xC9

/-- The Cpm constructor acting on guest memory: all zero, program image
copied to 0x0100, warm-boot JP at 0, BDOS JP at 5, RET at BDOS, 17 RETs
in the CBIOS jump table, both command-line FCBs blanked. -/
def initMemory (bin : List Nat) : Nat → Nat :=
  let m0 : Nat → Nat := fun _ => 0
  let m1 := copyBytes m0 LOAD_ADDRESS bin
  let m2 := wr (wr (wr m1 0 0xC3) 1 ((CBIOS_ADDRESS + 3) &&& 0xFF))
               2 (((CBIOS_ADDRESS + 3) >>> 8) &&& 0xFF)
  let m3 := wr (wr (wr m2 CPM_CALL_ADDRESS 0xC3)
                   (CPM_CALL_ADDRESS + 1) (BDOS_ADDRESS &&& 0xFF))
               (CPM_CALL_ADDRESS + 2) ((BDOS_ADDRESS >>> 8) &&& 0xFF)
  let m4 := wr m3 BDOS_ADDRESS 0xC9
  let m5 := cbiosRets m4 CBIOS_ENTRY_POINT_COUNT
  blankOutFcb (blankOutFcb m5 FCB1_ADDRESS) FCB2_ADDRESS

theorem cbiosRets_eq (m : Nat → Nat) (k : Nat) (hk : k ≤ 17) (a : Nat) :
    cbiosRets m k a =
      if CBIOS_ADDRESS ≤ a ∧ a < CBIOS_ADDRESS + k * 3 ∧ (a - CBIOS_ADDRESS) % 3 = 0
      then 0xC9 else m a := by
  induction k with
  | zero =>
    rw [if_neg (by omega)]
    rfl
  | succ j ih =>
    show wr (cbiosRets m j) (CBIOS_ADDRESS + j * 3) 0xC9 a = _
    rw [wr, ih (by omega)]
    by_cases hnew : a = CBIOS_ADDRESS + j * 3
    · subst hnew
      have hm : CBIOS_ADDRESS + j * 3 < MEM_SIZE := by
        unfold CBIOS_ADDRESS MEM_SIZE
        omega
      rw [if_pos ⟨hm, rfl⟩, if_pos (by unfold CBIOS_ADDRESS at *; omega)]
    · have hsplit :
          (CBIOS_ADDRESS ≤ a ∧ a < CBIOS_ADDRESS + (j + 1) * 3 ∧ (a - CBIOS_ADDRESS) % 3 = 0)
          ↔ (CBIOS_ADDRESS ≤ a ∧ a < CBIOS_ADDRESS + j * 3 ∧ (a - CBIOS_ADDRESS) % 3 = 0) := by
        unfold CBIOS_ADDRESS at *
        omega
      rw [if_neg (by intro hx; exact hnew hx.2)]
      by_cases hc : CBIOS_ADDRESS ≤ a ∧ a < CBIOS_ADDRESS + j * 3 ∧ (a - CBIOS_ADDRESS) % 3 = 0
      · rw [if_pos hc, if_pos (hsplit.mpr hc)]
      · rw [if_neg hc, if_neg (fun hx => hc (hsplit.mp hx))]

theorem wr_apply (m : Nat → Nat) (addr v a : Nat) (h : addr < MEM_SIZE) :
    wr m addr v a = if a = addr then v % 256 else m a := by
  simp [wr, h]

theorem blankOutFcb_eq (m : Nat → Nat) (addr a : Nat) (haddr : addr + 12 ≤ MEM_SIZE) :
    blankOutFcb m addr a =
      if a = addr then 0
      else if addr + 1 ≤ a ∧ a < addr + 12 then 0x20
      else m a := by
  have hget : ∀ j, j < 12 → (0 :: List.replicate 11 0x20).getD j 0
      = if j = 0 then 0 else 0x20 := by decide
  unfold blankOutFcb
  rw [copyBytes_eq]
  have hlen : (0 :: List.replicate 11 0x20).length = 12 := by decide
  rw [hlen]
  by_cases h0 : a = addr
  · subst h0
    rw [if_pos ⟨Nat.le_refl a, by omega, by omega⟩, if_pos rfl, Nat.sub_self]
    rw [hget 0 (by omega)]
    rfl
  · rw [if_neg h0]
    by_cases h1 : addr + 1 ≤ a ∧ a < addr + 12
    · rw [if_pos ⟨by omega, by omega, by omega⟩, if_pos h1]
      rw [hget (a - addr) (by omega)]
      rw [if_neg (by omega)]
    · rw [if_neg h1]
      rw [if_neg (by omega)]

/-- C2: after construction (program image copied to 0x0100) guest memory
satisfies the claimed pattern: bytes 0x0000..0x0002 are C3 03 FF, bytes
0x0005..0x0007 are C3 00 FE, byte 0xFE00 is C9, byte 0xFF00+3k is C9 for
every k below 17, the two command-line FCBs at 0x005C and 0x006C have
drive byte 0 followed by eleven 0x20 bytes, and every other byte outside
the loaded program image is zero. -/
theorem boot_memory_spec (bin : List Nat) :
    initMemory bin 0 = 0xC3 ∧ initMemory bin 1 = 0x03 ∧ initMemory bin 2 = 0xFF ∧
    initMemory bin 5 = 0xC3 ∧ initMemory bin 6 = 0x00 ∧ initMemory bin 7 = 0xFE ∧
    initMemory bin 0xFE00 = 0xC9 ∧
    (∀ k, k < 17 → initMemory bin (0xFF00 + 3 * k) = 0xC9) ∧
    initMemory bin 0x5C = 0 ∧ initMemory bin 0x6C = 0 ∧
    (∀ i, i < 11 → initMemory bin (0x5D + i) = 0x20 ∧ initMemory bin (0x6D + i) = 0x20) ∧
    (∀ a, a < MEM_SIZE →
      ¬ (a ≤ 2 ∨ (5 ≤ a ∧ a ≤ 7) ∨ a = 0xFE00 ∨
         (0xFF00 ≤ a ∧ a < 0xFF33 ∧ (a - 0xFF00) % 3 = 0) ∨
         (0x5C ≤ a ∧ a < 0x68) ∨ (0x6C ≤ a ∧ a < 0x78)) →
      ¬ (0x100 ≤ a ∧ a < 0x100 + bin.length) →
      initMemory bin a = 0) := by
  refine ⟨?_, ?_, ?_, ?_, ?_, ?_, ?_, ?_, ?_, ?_, ?_, ?_⟩
  ·
    simp only [initMemory]
    rw [blankOutFcb_eq _ _ _ (by decide), blankOutFcb_eq _ _ _ (by decide),
        cbiosRets_eq _ _ (by decide), wr_apply _ _ _ _ (by decide),
        wr_apply _ _ _ _ (by decide), wr_apply _ _ _ _ (by decide),
        wr_apply _ _ _ _ (by decide), wr_apply _ _ _ _ (by decide),
        wr_apply _ _ _ _ (by decide), wr_apply _ _ _ _ (by decide), copyBytes_eq]
    simp only [FCB1_ADDRESS, FCB2_ADDRESS, CBIOS_ADDRESS, CBIOS_ENTRY_POINT_COUNT,
      BDOS_ADDRESS, CPM_CALL_ADDRESS, LOAD_ADDRESS, MEM_SIZE]
    norm_num
    try decide
  ·
    simp only [initMemory]
    rw [blankOutFcb_eq _ _ _ (by decide), blankOutFcb_eq _ _ _ (by decide),
        cbiosRets_eq _ _ (by decide), wr_apply _ _ _ _ (by decide),
        wr_apply _ _ _ _ (by decide), wr_apply _ _ _ _ (by decide),
        wr_apply _ _ _ _ (by decide), wr_apply _ _ _ _ (by decide),
        wr_apply _ _ _ _ (by decide), wr_apply _ _ _ _ (by decide), copyBytes_eq]
    simp only [FCB1_ADDRESS, FCB2_ADDRESS, CBIOS_ADDRESS, CBIOS_ENTRY_POINT_COUNT,
      BDOS_ADDRESS, CPM_CALL_ADDRESS, LOAD_ADDRESS, MEM_SIZE]
    norm_num
    try decide
  ·
    simp only [initMemory]
    rw [blankOutFcb_eq _ _ _ (by decide), blankOutFcb_eq _ _ _ (by decide),
        cbiosRets_eq _ _ (by decide), wr_apply _ _ _ _ (by decide),
        wr_apply _ _ _ _ (by decide), wr_apply _ _ _ _ (by decide),
        wr_apply _ _ _ _ (by decide), wr_apply _ _ _ _ (by decide),
        wr_apply _ _ _ _ (by decide), wr_apply _ _ _ _ (by decide), copyBytes_eq]
    simp only [FCB1_ADDRESS, FCB2_ADDRESS, CBIOS_ADDRESS, CBIOS_ENTRY_POINT_COUNT,
      BDOS_ADDRESS, CPM_CALL_ADDRESS, LOAD_ADDRESS, MEM_SIZE]
    norm_num
    try decide
  ·
    simp only [initMemory]
    rw [blankOutFcb_eq _ _ _ (by decide), blankOutFcb_eq _ _ _ (by decide),
        cbiosRets_eq _ _ (by decide), wr_apply _ _ _ _ (by decide),
        wr_apply _ _ _ _ (by decide), wr_apply _ _ _ _ (by decide),
        wr_apply _ _ _ _ (by decide), wr_apply _ _ _ _ (by decide),
        wr_apply _ _ _ _ (by decide), wr_apply _ _ _ _ (by decide), copyBytes_eq]
    simp only [FCB1_ADDRESS, FCB2_ADDRESS, CBIOS_ADDRESS, CBIOS_ENTRY_POINT_COUNT,
      BDOS_ADDRESS, CPM_CALL_ADDRESS, LOAD_ADDRESS, MEM_SIZE]
    norm_num
    try decide
  ·
    simp only [initMemory]
    rw [blankOutFcb_eq _ _ _ (by decide), blankOutFcb_eq _ _ _ (by decide),
        cbiosRets_eq _ _ (by decide), wr_apply _ _ _ _ (by decide),
        wr_apply _ _ _ _ (by decide), wr_apply _ _ _ _ (by decide),
        wr_apply _ _ _ _ (by decide), wr_apply _ _ _ _ (by decide),
        wr_apply _ _ _ _ (by decide), wr_apply _ _ _ _ (by decide), copyBytes_eq]
    simp only [FCB1_ADDRESS, FCB2_ADDRESS, CBIOS_ADDRESS, CBIOS_ENTRY_POINT_COUNT,
      BDOS_ADDRESS, CPM_CALL_ADDRESS, LOAD_ADDRESS, MEM_SIZE]
    norm_num
    try decide
  ·
    simp only [initMemory]
    rw [blankOutFcb_eq _ _ _ (by decide), blankOutFcb_eq _ _ _ (by decide),
        cbiosRets_eq _ _ (by decide), wr_apply _ _ _ _ (by decide),
        wr_apply _ _ _ _ (by decide), wr_apply _ _ _ _ (by decide),
        wr_apply _ _ _ _ (by decide), wr_apply _ _ _ _ (by decide),
        wr_apply _ _ _ _ (by decide), wr_apply _ _ _ _ (by decide), copyBytes_eq]
    simp only [FCB1_ADDRESS, FCB2_ADDRESS, CBIOS_ADDRESS, CBIOS_ENTRY_POINT_COUNT,
      BDOS_ADDRESS, CPM_CALL_ADDRESS, LOAD_ADDRESS, MEM_SIZE]
    norm_num
    try decide
  ·
    simp only [initMemory]
    rw [blankOutFcb_eq _ _ _ (by decide), blankOutFcb_eq _ _ _ (by decide),
        cbiosRets_eq _ _ (by decide), wr_apply _ _ _ _ (by decide),
        wr_apply _ _ _ _ (by decide), wr_apply _ _ _ _ (by decide),
        wr_apply _ _ _ _ (by decide), wr_apply _ _ _ _ (by decide),
        wr_apply _ _ _ _ (by decide), wr_apply _ _ _ _ (by decide), copyBytes_eq]
    simp only [FCB1_ADDRESS, FCB2_ADDRESS, CBIOS_ADDRESS, CBIOS_ENTRY_POINT_COUNT,
      BDOS_ADDRESS, CPM_CALL_ADDRESS, LOAD_ADDRESS, MEM_SIZE]
    norm_num
    try decide
  · intro k hk
    simp only [initMemory]
    rw [blankOutFcb_eq _ _ _ (by decide), blankOutFcb_eq _ _ _ (by decide),
        cbiosRets_eq _ _ (by decide)]
    simp only [FCB1_ADDRESS, FCB2_ADDRESS, CBIOS_ADDRESS, CBIOS_ENTRY_POINT_COUNT]
    split_ifs <;> omega
  · simp only [initMemory]
    rw [blankOutFcb_eq _ _ _ (by decide), blankOutFcb_eq _ _ _ (by decide)]
    simp only [FCB1_ADDRESS, FCB2_ADDRESS]
    norm_num
  · simp only [initMemory]
    rw [blankOutFcb_eq _ _ _ (by decide)]
    simp only [FCB2_ADDRESS]
    norm_num
  · intro i hi
    constructor
    · simp only [initMemory]
      rw [blankOutFcb_eq _ _ _ (by decide), blankOutFcb_eq _ _ _ (by decide)]
      simp only [FCB1_ADDRESS, FCB2_ADDRESS]
      split_ifs <;> omega
    · simp only [initMemory]
      rw [blankOutFcb_eq _ _ _ (by decide)]
      simp only [FCB2_ADDRESS]
      split_ifs <;> omega
  · intro a ha hspec himg
    simp only [MEM_SIZE] at ha
    simp only [initMemory]
    rw [blankOutFcb_eq _ _ _ (by decide), blankOutFcb_eq _ _ _ (by decide),
        cbiosRets_eq _ _ (by decide), wr_apply _ _ _ _ (by decide),
        wr_apply _ _ _ _ (by decide), wr_apply _ _ _ _ (by decide),
        wr_apply _ _ _ _ (by decide), wr_apply _ _ _ _ (by decide),
        wr_apply _ _ _ _ (by decide), wr_apply _ _ _ _ (by decide), copyBytes_eq]
    simp only [FCB1_ADDRESS, FCB2_ADDRESS, CBIOS_ADDRESS, CBIOS_ENTRY_POINT_COUNT,
      BDOS_ADDRESS, CPM_CALL_ADDRESS, LOAD_ADDRESS, MEM_SIZE]
    have h01 : ¬ (a = 108) := by omega
    have h02 : ¬ (108 + 1 ≤ a ∧ a < 108 + 12) := by omega
    have h03 : ¬ (a = 92) := by omega
    have h04 : ¬ (92 + 1 ≤ a ∧ a < 92 + 12) := by omega
    have h05 : ¬ (65280 ≤ a ∧ a < 65280 + 17 * 3 ∧ (a - 65280) % 3 = 0) := by omega
    have h06 : ¬ (a = 65024) := by omega
    have h07 : ¬ (a = 5 + 2) := by omega
    have h08 : ¬ (a = 5 + 1) := by omega
    have h09 : ¬ (a = 5) := by omega
    have h10 : ¬ (a = 2) := by omega
    have h11 : ¬ (a = 1) := by omega
    have h12 : ¬ (a = 0) := by omega
    have h13 : ¬ (256 ≤ a ∧ a < 256 + bin.length ∧ a < 65536) := by omega
    rw [if_neg h01, if_neg h02, if_neg h03, if_neg h04, if_neg h05, if_neg h06,
        if_neg h07, if_neg h08, if_neg h09, if_neg h10, if_neg h11, if_neg h12,
        if_neg h13]

/-- Witness for C2 at the one-byte program image 0x76 (HALT). -/
theorem boot_memory_spec_witness :
    initMemory [0x76] 0 = 0xC3 ∧ initMemory [0x76] 1 = 0x03 ∧ initMemory [0x76] 2 = 0xFF ∧
    initMemory [0x76] 5 = 0xC3 ∧ initMemory [0x76] 6 = 0x00 ∧ initMemory [0x76] 7 = 0xFE ∧
    initMemory [0x76] 0xFE00 = 0xC9 ∧
    (∀ k, k < 17 → initMemory [0x76] (0xFF00 + 3 * k) = 0xC9) ∧
    initMemory [0x76] 0x5C = 0 ∧ initMemory [0x76] 0x6C = 0 ∧
    (∀ i, i < 11 → initMemory [0x76] (0x5D + i) = 0x20 ∧ initMemory [0x76] (0x6D + i) = 0x20) ∧
    (∀ a, a < MEM_SIZE →
      ¬ (a ≤ 2 ∨ (5 ≤ a ∧ a ≤ 7) ∨ a = 0xFE00 ∨
         (0xFF00 ≤ a ∧ a < 0xFF33 ∧ (a - 0xFF00) % 3 = 0) ∨
         (0x5C ≤ a ∧ a < 0x68) ∨ (0x6C ≤ a ∧ a < 0x78)) →
      ¬ (0x100 ≤ a ∧ a < 0x100 + List.length [0x76]) →
      initMemory [0x76] a = 0) :=
  boot_memory_spec [0x76]

/-! ## The console channel: the keyQueue plus the single keyResolve
reader slot, with the operations gotKey (keypress arrival), readStdin
(blocking read) and the non-blocking dequeue used by BDOS 6. -/

structure Chan where
  keyQueue : List Nat
  keyResolve : Bool
deriving DecidableEq

/-- Cpm.gotKey: if no reader is registered, enqueue; otherwise clear the
reader slot and deliver the key to it (returned as some key). -/
def gotKey (ch : Chan) (key : Nat) : Chan × Option Nat :=
  if ch.keyResolve = false then
    ({ ch with keyQueue := ch.keyQueue ++ [key] }, none)
  else
    ({ ch with keyResolve := false }, some key)

/-- Cpm.readStdin: with an empty queue, registering a second reader is
fatal (none); otherwise the reader slot is set and no key is produced
yet. With a non-empty queue the head is consumed immediately. -/
def chanRead (ch : Chan) : Option (Chan × Option Nat) :=
  match ch.keyQueue with
  | [] =>
    if ch.keyResolve then none
    else some ({ ch with keyResolve := true }, none)
  | k :: rest => some ({ ch with keyQueue := rest }, some k)

/-- The non-blocking keyQueue.shift used by BDOS 6 with E=0xFF. -/
def chanPoll (ch : Chan) : Chan :=
  { ch with keyQueue := ch.keyQueue.tail }

/-- States of the console channel reachable from the initial empty state
by any interleaving of key arrivals, reads and non-blocking polls
(status queries do not change the state). -/
inductive ChanReachable : Chan → Prop where
  | init : ChanReachable { keyQueue := [], keyResolve := false }
  | push (ch : Chan) (k : Nat) (h : ChanReachable ch) : ChanReachable (gotKey ch k).1
  | read (ch ch2 : Chan) (v : Option Nat) (h : ChanReachable ch)
      (hstep : chanRead ch = some (ch2, v)) : ChanReachable ch2
  | poll (ch : Chan) (h : ChanReachable ch) : ChanReachable (chanPoll ch)

/-- C7: in every reachable channel state a non-empty key queue implies no
registered reader; a key arriving while a reader is registered is
delivered immediately with the reader slot cleared; and a read issued
while keys are queued consumes the head without registering a reader. -/
theorem console_channel_invariant :
    (∀ ch, ChanReachable ch → ch.keyQueue ≠ [] → ch.keyResolve = false) ∧
    (∀ ch k, ch.keyResolve = true →
      gotKey ch k = ({ ch with keyResolve := false }, some k)) ∧
    (∀ ch k rest, ch.keyQueue = k :: rest →
      chanRead ch = some ({ ch with keyQueue := rest }, some k)) := by
  refine ⟨?_, ?_, ?_⟩
  · intro ch h
    induction h with
    | init => intro hq; simp at hq
    | push ch k h ih =>
      unfold gotKey
      by_cases hr : ch.keyResolve = false
      · rw [if_pos hr]
        intro _
        exact hr
      · rw [if_neg hr]
        intro _
        rfl
    | read ch ch2 v h hstep ih =>
      unfold chanRead at hstep
      match hq : ch.keyQueue with
      | [] =>
        rw [hq] at hstep
        by_cases hr : ch.keyResolve
        · rw [if_pos hr] at hstep
          exact absurd hstep (by simp)
        · rw [if_neg hr] at hstep
          simp only [Option.some.injEq, Prod.mk.injEq] at hstep
          intro hq2
          rw [← hstep.1] at hq2
          simp at hq2
      | k :: rest =>
        rw [hq] at hstep
        simp only [Option.some.injEq, Prod.mk.injEq] at hstep
        intro _
        rw [← hstep.1]
        exact ih (by rw [hq]; simp)
    | poll ch h ih =>
      unfold chanPoll
      intro hq
      simp only at hq
      have : ch.keyQueue ≠ [] := by
        intro he
        rw [he] at hq
        simp at hq
      exact ih this
  · intro ch k hr
    unfold gotKey
    rw [if_neg (by rw [hr]; simp)]
  · intro ch k rest hq
    unfold chanRead
    rw [hq]

/-- Witness for C7: a concrete reachable state (one key queued after a
push on the initial channel), the push-delivers fact at a channel with a
waiting reader, and the read-consumes fact at a channel with one key. -/
theorem console_channel_invariant_witness :
    (Chan.mk [65] false).keyQueue ≠ [] ∧ (Chan.mk [65] false).keyResolve = false ∧
    gotKey (Chan.mk [] true) 66 = ({ Chan.mk [] true with keyResolve := false }, some 66) ∧
    chanRead (Chan.mk [67] false) = some ({ Chan.mk [67] false with keyQueue := [] }, some 67) := by
  refine ⟨by decide, ?_, ?_, ?_⟩
  · exact console_channel_invariant.1 (Chan.mk [65] false)
      (ChanReachable.push (Chan.mk [] false) 65 ChanReachable.init) (by decide)
  · exact console_channel_invariant.2.1 (Chan.mk [] true) 66 rfl
  · exact console_channel_invariant.2.2 (Chan.mk [67] false) 67 [] rfl


/-! ## CPU registers (the z80-emulator collaborator): 8-bit registers
written mod 256, with DE as the combined 16-bit pair. -/

structure Regs where
  a : Nat
  b : Nat
  c : Nat
  d : Nat
  e : Nat
  h : Nat
  l : Nat
  pc : Nat
deriving DecidableEq

def Regs.de (r : Regs) : Nat := r.d * 256 + r.e

def setA (v : Nat) (r : Regs) : Regs := { r with a := v % 256 }
def setB (v : Nat) (r : Regs) : Regs := { r with b := v % 256 }
def setH (v : Nat) (r : Regs) : Regs := { r with h := v % 256 }
def setL (v : Nat) (r : Regs) : Regs := { r with l := v % 256 }

/-! ## The Cpm state: guest memory plus the HAL fields of class Cpm. -/

structure Cpm where
  mem : Nat → Nat
  dma : Nat
  currentDrive : Nat
  driveMapped : Nat → Bool
  keyQueue : List Nat
  keyResolve : Bool
  dirEntries : List (List Nat)
  stdout : List Nat
  printerOut : List Nat
  logMsgs : List String

/-- Outcomes of the host syscalls a single BDOS/CBIOS call may perform
(fs.openSync, fs.readSync data, fs.writeSync result, fs.statSync size,
fs.opendirSync entries, fs.accessSync, fs.renameSync, and the next
keystroke delivered while blocked in readStdin). -/
structure Host where
  nextKey : Nat
  openFd : Option Nat
  fileContent : List Nat
  writeResult : Option Nat
  statSize : Option Nat
  dirList : List (List Nat × Bool)
  fileExists : Bool
  renameOk : Bool

/-- One BDOS or CBIOS call either returns to the guest, throws a fatal
host error, or exits the process (write failure in BDOS 21). -/
inductive BdosResult where
  | ok : Cpm → Regs → BdosResult
  | fatal : String → BdosResult
  | exited : Cpm → BdosResult
deriving Inhabited

/-! ## Filename split, modelling path.parse on a plain basename: the
extension starts at the last dot, unless there is no dot, the dot is the
first character, or the name is exactly ".." (46 is the dot code). -/

def lastDotIdx (f : List Nat) : Option Nat :=
  (List.range f.length).foldl (fun acc i => if f.getD i 0 = 46 then some i else acc) none

def parseNameExt (f : List Nat) : List Nat × List Nat :=
  if f = [46, 46] then (f, []) else
  match lastDotIdx f with
  | none => (f, [])
  | some 0 => (f, [])
  | some i => (f.take i, f.drop i)

/-- ext.startsWith(".") ? ext.substr(1) : ext -/
def extWithoutDot (e : List Nat) : List Nat :=
  match e with
  | 46 :: rest => rest
  | _ => e

/-! ## Directory iterator -/

/-- Case-sensitive ascending comparison of filenames by code units, as
the default JavaScript Array.prototype.sort comparator does. -/
def lexLe : List Nat → List Nat → Bool
  | [], _ => true
  | _ :: _, [] => false
  | x :: xs, y :: ys => if x < y then true else if y < x then false else lexLe xs ys

def lexLeP (x y : List Nat) : Prop := lexLe x y = true

instance : DecidableRel lexLeP := fun x y => decEq (lexLe x y) true

/-- Strict ascending order: at most lexLe and distinct. -/
def lexLt (x y : List Nat) : Prop := lexLe x y = true ∧ x ≠ y

def sortNames (l : List (List Nat)) : List (List Nat) :=
  List.insertionSort lexLeP l

/-- The names of the regular files of a host directory listing, in
readdir order. -/
def regularFiles (dirList : List (List Nat × Bool)) : List (List Nat) :=
  (dirList.filter (fun e => e.2)).map (fun e => e.1)

/-- The memory effect of Cpm.searchForNextDirEntry yielding filename f:
zero the FCB area [dma, dma+32), fill [dma+32, dma+128) with 0xE5, fill
[dma+1, dma+12) with 0x20, then copy the parsed base name to dma+1 and
the extension (without its dot) to dma+9, in that order. -/
def dirEntryWrite (f : List Nat) (dma : Nat) (m : Nat → Nat) : Nat → Nat :=
  let m1 := fillMem m 0 dma (dma + 32)
  let m2 := fillMem m1 0xE5 (dma + 32) (dma + 128)
  let p := parseNameExt f
  let name := p.1
  let ext := extWithoutDot p.2
  let m3 := fillMem m2 0x20 (dma + 1) (dma + 12)
  let m4 := copyBytes m3 (dma + 1) name
  copyBytes m4 (dma + 9) ext

/-- Cpm.searchForNextDirEntry: pop the head filename; if none, A=0xFF;
otherwise write the directory entry at the DMA buffer and set A=0. -/
def searchForNextDirEntry (st : Cpm) (r : Regs) : Cpm × Regs :=
  match st.dirEntries with
  | [] => (st, setA 0xFF r)
  | f :: rest =>
    ({ st with dirEntries := rest, mem := dirEntryWrite f st.dma st.mem }, setA 0 r)

/-! ## Console read big-step -/

/-- The net effect of awaiting readStdin: an immediate key from the
queue, or (queue empty) suspend and resume with the next delivered key;
a second reader while one is registered is the fatal nested-read case
(none). -/
def readKey (host : Host) (st : Cpm) : Option (Nat × Cpm) :=
  match st.keyQueue with
  | [] => if st.keyResolve then none else some (host.nextKey, st)
  | k :: rest => some (k, { st with keyQueue := rest })

/-- Cpm.getDriveDir succeeds iff the drive resolved from the FCB drive
byte (0 and 0x3F mean the current drive) is in the drive map. -/
def getDriveDirOk (st : Cpm) (m : Nat → Nat) (de : Nat) : Bool :=
  let drive := if m de = 0 ∨ m de = 0x3F then st.currentDrive else m de - 1
  st.driveMapped drive

/-! ## The BDOS dispatcher (Cpm.handleBdosCall) -/

def handleBdosCall (host : Host) (st : Cpm) (r : Regs) : BdosResult :=
  let f := r.c
  if f = 1 then
    match readKey host st with
    | none => .fatal ("Nested calls to readStdin")
    | some (v, st1) =>
      .ok { st1 with stdout := st1.stdout ++ [v] } (setL v (setA v r))
  else if f = 2 then
    .ok { st with stdout := st.stdout ++ [r.e] } r
  else if f = 5 then
    .ok { st with printerOut := st.printerOut ++ [r.e] } r
  else if f = 6 then
    if r.e = 0xFF then
      match st.keyQueue with
      | [] => .ok st (setA 0 r)
      | k :: rest => .ok { st with keyQueue := rest } (setA k r)
    else
      .ok { st with stdout := st.stdout ++ [r.e] } r
  else if f = 11 then
    let status := if st.keyQueue.length = 0 then 0 else 1
    .ok st (setL status (setA status r))
  else if f = 13 then
    .ok st r
  else if f = 14 then
    if st.driveMapped r.e then
      .ok { st with currentDrive := r.e, logMsgs := st.logMsgs ++ ["Selected drive"] }
         (setL 0 (setA 0 r))
    else
      .ok st (setL 0xFF (setA 0xFF r))
  else if f = 15 then
    let de := r.de
    let m1 := fcbClear st.mem de
    if getDriveDirOk st m1 de then
      match host.openFd with
      | some fd => .ok { st with mem := fcbSetFd m1 de fd } (setA 0 r)
      | none => .ok { st with mem := fcbSetFd m1 de 0 } (setA 0xFF r)
    else .fatal ("No dir for drive")
  else if f = 16 then
    let de := r.de
    match fcbGetFd st.mem de with
    | none => .fatal ("Invalid FD")
    | some fd =>
      if fd = 0 then .fatal ("Closing unopened FCB")
      else .ok { st with mem := fcbSetFd st.mem de 0 } (setA 0 r)
  else if f = 17 then
    let de := r.de
    if getDriveDirOk st st.mem de then
      let st1 := { st with dirEntries := sortNames (regularFiles host.dirList) }
      let p := searchForNextDirEntry st1 r
      .ok p.1 p.2
    else .fatal ("No dir for drive")
  else if f = 18 then
    let p := searchForNextDirEntry st r
    .ok p.1 p.2
  else if f = 19 then
    if getDriveDirOk st st.mem r.de then
      .ok st (setA (if host.fileExists then 0 else 0xFF) r)
    else .fatal ("No dir for drive")
  else if f = 20 then
    let de := r.de
    match fcbGetFd st.mem de with
    | none => .fatal ("Invalid FD")
    | some fd =>
      if fd = 0 then .fatal ("Reading from unopened FCB")
      else
        match fcbGetCurrentRecord st.mem de with
        | none => .fatal ("Invalid current record")
        | some rec =>
          if st.dma + RECORD_SIZE ≤ MEM_SIZE then
            let pos := rec * RECORD_SIZE
            let bytesRead := min RECORD_SIZE (host.fileContent.length - pos)
            if bytesRead = 0 then
              .ok st (setB 0 (setH 0 (setL 1 (setA 1 r))))
            else
              let m1 := readIntoMem st.mem host.fileContent st.dma pos bytesRead
              let m2 := fillMem m1 26 (st.dma + bytesRead) (st.dma + RECORD_SIZE)
              let m3 := fcbSetCurrentRecord m2 de (rec + 1)
              .ok { st with mem := m3 } (setB 0 (setH 0 (setL 0 (setA 0 r))))
          else .fatal ("readSync out of range")
  else if f = 21 then
    let de := r.de
    match fcbGetFd st.mem de with
    | none => .fatal ("Invalid FD")
    | some fd =>
      if fd = 0 then .fatal ("Writing to unopened FCB")
      else
        match fcbGetCurrentRecord st.mem de with
        | none => .fatal ("Invalid current record")
        | some rec =>
          if st.dma + RECORD_SIZE ≤ MEM_SIZE then
            match host.writeResult with
            | none => .exited st
            | some bytesWritten =>
              if bytesWritten ≠ RECORD_SIZE then .fatal ("Only wrote")
              else
                .ok { st with mem := fcbSetCurrentRecord st.mem de (rec + 1) } (setA 0 r)
          else .fatal ("writeSync out of range")
  else if f = 22 then
    let de := r.de
    let m1 := fcbClear st.mem de
    if getDriveDirOk st m1 de then
      match host.openFd with
      | some fd => .ok { st with mem := fcbSetFd m1 de fd } (setA 0 r)
      | none => .ok { st with mem := fcbSetFd m1 de 0 } (setA 0xFF r)
    else .fatal ("No dir for drive")
  else if f = 23 then
    if getDriveDirOk st st.mem r.de ∧ getDriveDirOk st st.mem (r.de + 16) then
      .ok st (setA (if host.renameOk then 0 else 0xFF) r)
    else .fatal ("No dir for drive")
  else if f = 25 then
    .ok st (setA st.currentDrive r)
  else if f = 26 then
    .ok { st with dma := r.de } r
  else if f = 33 then
    let de := r.de
    match fcbGetFd st.mem de with
    | none => .fatal ("Invalid FD")
    | some fd =>
      if fd = 0 then .fatal ("Reading from unopened FCB")
      else
        let recordNumber := fcbGetRandomRecord st.mem de
        if st.dma + RECORD_SIZE ≤ MEM_SIZE then
          let pos := recordNumber * RECORD_SIZE
          let bytesRead := min RECORD_SIZE (host.fileContent.length - pos)
          if bytesRead = 0 then
            .ok { st with mem := fcbSetCurrentRecord st.mem de recordNumber }
               (setA 1 (setA 0 r))
          else
            let m1 := readIntoMem st.mem host.fileContent st.dma pos bytesRead
            let m2 := fillMem m1 26 (st.dma + bytesRead) (st.dma + RECORD_SIZE)
            .ok { st with mem := fcbSetCurrentRecord m2 de recordNumber } (setA 0 r)
        else .fatal ("readSync out of range")
  else if f = 34 then
    let de := r.de
    match fcbGetFd st.mem de with
    | none => .fatal ("Invalid FD")
    | some fd =>
      if fd = 0 then .fatal ("Writing to unopened FCB")
      else
        let recordNumber := fcbGetRandomRecord st.mem de
        if st.dma + RECORD_SIZE ≤ MEM_SIZE then
          match host.writeResult with
          | none => .fatal ("writeSync threw")
          | some bytesWritten =>
            let r1 := if bytesWritten = 0 then setA 5 r else setA 0 r
            .ok { st with mem := fcbSetCurrentRecord st.mem de recordNumber } r1
        else .fatal ("writeSync out of range")
  else if f = 35 then
    if getDriveDirOk st st.mem r.de then
      match host.statSize with
      | some size =>
        let records := (size + RECORD_SIZE - 1) / RECORD_SIZE
        .ok { st with mem := fcbSetRandomRecord st.mem r.de records } (setA 0 r)
      | none => .ok st (setA 0xFF r)
    else .fatal ("No dir for drive")
  else
    .ok { st with logMsgs := st.logMsgs ++ ["Error: Unhandled CP/M syscall"] } r

/-! ## The CBIOS dispatcher (Cpm.handleCbiosCall); entry points CONST=2,
CONIN=3, CONOUT=4 are live, the rest only log. -/

def handleCbiosCall (host : Host) (st : Cpm) (r : Regs) : BdosResult :=
  let addr := r.pc - CBIOS_ADDRESS
  if addr % 3 ≠ 0 then .fatal ("CBIOS address is not multiple of 3")
  else
    let func := addr / 3
    let st0 := { st with logMsgs := st.logMsgs ++ ["CBIOS function"] }
    if func = 2 then
      .ok st0 (setA (if st0.keyQueue.length = 0 then 0x00 else 0xFF) r)
    else if func = 3 then
      match readKey host st0 with
      | none => .fatal ("Nested calls to readStdin")
      | some (v, st1) => .ok st1 (setA v r)
    else if func = 4 then
      .ok { st0 with stdout := st0.stdout ++ [r.c] } r
    else
      .ok { st0 with logMsgs := st0.logMsgs ++ ["Error: Unhandled CBIOS function"] } r


/-! ## C8: unsupported calls -/

/-- The function codes the BDOS switch implements. -/
def bdosSupported (f : Nat) : Bool :=
  f = 1 ∨ f = 2 ∨ f = 5 ∨ f = 6 ∨ f = 11 ∨ f = 13 ∨ f = 14 ∨ f = 15 ∨ f = 16 ∨
  f = 17 ∨ f = 18 ∨ f = 19 ∨ f = 20 ∨ f = 21 ∨ f = 22 ∨ f = 23 ∨ f = 25 ∨
  f = 26 ∨ f = 33 ∨ f = 34 ∨ f = 35

/-- C8: for every BDOS function code outside the supported set
(1,2,5,6,11,13,14,15,16,17,18,19,20,21,22,23,25,26,33,34,35), and for
every unimplemented CBIOS entry point (all 17 except CONST=2, CONIN=3,
CONOUT=4), the dispatcher only appends a log message and returns with
the registers and all guest memory (indeed the whole machine state
except the log) unchanged. -/
theorem unsupported_calls_frame (host : Host) (st : Cpm) (r : Regs) :
    (bdosSupported r.c = false →
      handleBdosCall host st r =
        .ok { st with logMsgs := st.logMsgs ++ ["Error: Unhandled CP/M syscall"] } r) ∧
    (∀ k, k < 17 → k ≠ 2 → k ≠ 3 → k ≠ 4 → r.pc = CBIOS_ADDRESS + 3 * k →
      handleCbiosCall host st r =
        .ok { st with logMsgs := (st.logMsgs ++ ["CBIOS function"]) ++ ["Error: Unhandled CBIOS function"] } r) := by
  constructor
  · intro hun
    simp only [bdosSupported, decide_eq_false_iff_not] at hun
    push_neg at hun
    obtain ⟨u1, u2, u5, u6, u11, u13, u14, u15, u16, u17, u18, u19, u20, u21,
      u22, u23, u25, u26, u33, u34, u35⟩ := hun
    unfold handleBdosCall
    rw [if_neg u1, if_neg u2, if_neg u5, if_neg u6, if_neg u11, if_neg u13,
        if_neg u14, if_neg u15, if_neg u16, if_neg u17, if_neg u18, if_neg u19,
        if_neg u20, if_neg u21, if_neg u22, if_neg u23, if_neg u25, if_neg u26,
        if_neg u33, if_neg u34, if_neg u35]
  · intro k hk hk2 hk3 hk4 hpc
    unfold handleCbiosCall
    rw [hpc]
    have haddr : CBIOS_ADDRESS + 3 * k - CBIOS_ADDRESS = 3 * k := by omega
    rw [haddr]
    rw [if_neg (by omega)]
    have hdiv : 3 * k / 3 = k := by omega
    rw [hdiv]
    rw [if_neg hk2, if_neg hk3, if_neg hk4]

/-- Witness for C8 at function code 99 and CBIOS entry point 0 (BOOT). -/
theorem unsupported_calls_frame_witness :
    (bdosSupported (Regs.mk 0 0 99 0 0 0 0 0xFF00).c = false →
      handleBdosCall (Host.mk 0 none [] none none [] false false)
        (Cpm.mk (fun _ => 0) 0x80 0 (fun _ => false) [] false [] [] [] [])
        (Regs.mk 0 0 99 0 0 0 0 0xFF00) =
        .ok { Cpm.mk (fun _ => 0) 0x80 0 (fun _ => false) [] false [] [] [] [] with
              logMsgs := (Cpm.mk (fun _ => 0) 0x80 0 (fun _ => false) [] false [] [] [] []).logMsgs
                ++ ["Error: Unhandled CP/M syscall"] }
           (Regs.mk 0 0 99 0 0 0 0 0xFF00)) ∧
    (∀ k, k < 17 → k ≠ 2 → k ≠ 3 → k ≠ 4 →
      (Regs.mk 0 0 99 0 0 0 0 0xFF00).pc = CBIOS_ADDRESS + 3 * k →
      handleCbiosCall (Host.mk 0 none [] none none [] false false)
        (Cpm.mk (fun _ => 0) 0x80 0 (fun _ => false) [] false [] [] [] [])
        (Regs.mk 0 0 99 0 0 0 0 0xFF00) =
        .ok { Cpm.mk (fun _ => 0) 0x80 0 (fun _ => false) [] false [] [] [] [] with
              logMsgs := ((Cpm.mk (fun _ => 0) 0x80 0 (fun _ => false) [] false [] [] [] []).logMsgs
                ++ ["CBIOS function"]) ++ ["Error: Unhandled CBIOS function"] }
           (Regs.mk 0 0 99 0 0 0 0 0xFF00)) :=
  unsupported_calls_frame (Host.mk 0 none [] none none [] false false)
    (Cpm.mk (fun _ => 0) 0x80 0 (fun _ => false) [] false [] [] [] [])
    (Regs.mk 0 0 99 0 0 0 0 0xFF00)

/-! ## C9: BDOS 35 COMPUTE SIZE -/

theorem fcbSetRandomRecord_bytes (m : Nat → Nat) (de n : Nat) (h : de + 36 ≤ MEM_SIZE) :
    fcbSetRandomRecord m de n (de + 0x21) = n % 256 ∧
    fcbSetRandomRecord m de n (de + 0x22) = n / 256 % 256 ∧
    fcbSetRandomRecord m de n (de + 0x23) = (if 0xFFFF < n then 1 else 0) ∧
    (∀ a, a ≠ de + 0x21 → a ≠ de + 0x22 → a ≠ de + 0x23 →
      fcbSetRandomRecord m de n a = m a) := by
  unfold fcbSetRandomRecord
  refine ⟨?_, ?_, ?_, ?_⟩
  · rw [wr_ne _ _ _ _ (by omega), wr_ne _ _ _ _ (by omega),
        wr_at _ _ _ (by omega), and_255]
    omega
  · rw [wr_ne _ _ _ _ (by omega), wr_at _ _ _ (by omega), shiftRight8, and_255]
    omega
  · rw [wr_at _ _ _ (by omega)]
    split_ifs <;> rfl
  · intro a h1 h2 h3
    rw [wr_ne _ _ _ _ h3, wr_ne _ _ _ _ h2, wr_ne _ _ _ _ h1]

/-- C9: BDOS 35 stats the host file named by the FCB: on success it sets
randomRecord to ceil(size/128) and A=0x00, where the randomRecord setter
stores the low 16 bits little-endian in r[0..1] and writes r[2]=1
exactly when the value exceeds 0xFFFF (else r[2]=0); on stat failure it
sets A=0xFF. -/
theorem computeSize_spec (host : Host) (st : Cpm) (r : Regs)
    (hc : r.c = 35)
    (hmap : getDriveDirOk st st.mem r.de = true)
    (hde : r.de + 36 ≤ MEM_SIZE) :
    (∀ size, host.statSize = some size →
      ∃ st2 r2, handleBdosCall host st r = .ok st2 r2 ∧
        r2 = setA 0 r ∧
        st2.mem (r.de + 0x21) = (size + 127) / 128 % 256 ∧
        st2.mem (r.de + 0x22) = (size + 127) / 128 / 256 % 256 ∧
        st2.mem (r.de + 0x23) = (if 0xFFFF < (size + 127) / 128 then 1 else 0) ∧
        fcbGetRandomRecord st2.mem r.de = (size + 127) / 128 % 65536 ∧
        (∀ a, a ≠ r.de + 0x21 → a ≠ r.de + 0x22 → a ≠ r.de + 0x23 →
          st2.mem a = st.mem a)) ∧
    (host.statSize = none →
      handleBdosCall host st r = .ok st (setA 0xFF r)) := by
  have hrec : ∀ size : Nat, (size + RECORD_SIZE - 1) / RECORD_SIZE = (size + 127) / 128 := by
    intro size
    unfold RECORD_SIZE
    omega
  constructor
  · intro size hsz
    have hstep : handleBdosCall host st r =
        .ok { st with mem :=
                (fcbSetRandomRecord st.mem r.de ((size + RECORD_SIZE - 1) / RECORD_SIZE)) }
           (setA 0 r) := by
      unfold handleBdosCall
      rw [hc]
      norm_num
      rw [if_pos hmap, hsz]
    rw [hrec size] at hstep
    obtain ⟨hb0, hb1, hb2, hother⟩ :=
      fcbSetRandomRecord_bytes st.mem r.de ((size + 127) / 128) hde
    refine ⟨_, _, hstep, rfl, hb0, hb1, hb2, ?_, hother⟩
    show fcbGetRandomRecord (fcbSetRandomRecord st.mem r.de ((size + 127) / 128)) r.de
        = (size + 127) / 128 % 65536
    unfold fcbGetRandomRecord
    rw [hb0, hb1, lor2_eq_add _ _ (by omega)]
    omega
  · intro hsz
    unfold handleBdosCall
    rw [hc]
    norm_num
    rw [if_pos hmap, hsz]

/-- Witness for C9: an FCB at 0x200 on a drive-mapped state, with a stat
result of 300 bytes (3 records) in the success branch. -/
theorem computeSize_spec_witness :
    (∀ size, (Host.mk 0 none [] none (some 300) [] false false).statSize = some size →
      ∃ st2 r2, handleBdosCall (Host.mk 0 none [] none (some 300) [] false false)
          (Cpm.mk (fun _ => 0) 0x80 0 (fun _ => true) [] false [] [] [] [])
          (Regs.mk 0 0 35 2 0 0 0 0xFE00) = .ok st2 r2 ∧
        r2 = setA 0 (Regs.mk 0 0 35 2 0 0 0 0xFE00) ∧
        st2.mem (0x200 + 0x21) = (size + 127) / 128 % 256 ∧
        st2.mem (0x200 + 0x22) = (size + 127) / 128 / 256 % 256 ∧
        st2.mem (0x200 + 0x23) = (if 0xFFFF < (size + 127) / 128 then 1 else 0) ∧
        fcbGetRandomRecord st2.mem 0x200 = (size + 127) / 128 % 65536 ∧
        (∀ a, a ≠ 0x200 + 0x21 → a ≠ 0x200 + 0x22 → a ≠ 0x200 + 0x23 →
          st2.mem a = (fun _ => (0:Nat)) a)) ∧
    ((Host.mk 0 none [] none (some 300) [] false false).statSize = none →
      handleBdosCall (Host.mk 0 none [] none (some 300) [] false false)
        (Cpm.mk (fun _ => 0) 0x80 0 (fun _ => true) [] false [] [] [] [])
        (Regs.mk 0 0 35 2 0 0 0 0xFE00) =
        .ok (Cpm.mk (fun _ => 0) 0x80 0 (fun _ => true) [] false [] [] [] [])
           (setA 0xFF (Regs.mk 0 0 35 2 0 0 0 0xFE00))) :=
  computeSize_spec (Host.mk 0 none [] none (some 300) [] false false)
    (Cpm.mk (fun _ => 0) 0x80 0 (fun _ => true) [] false [] [] [] [])
    (Regs.mk 0 0 35 2 0 0 0 0xFE00) (by decide) (by decide) (by decide)

/-! ## C1: BDOS 20 READ SEQ, and C10: sequential advance validity -/

/-- Any value the currentRecord getter returns is at most 65536. -/
theorem fcbGetCurrentRecord_le (m : Nat → Nat) (de rec : Nat)
    (h : fcbGetCurrentRecord m de = some rec) : rec ≤ 65536 := by
  unfold fcbGetCurrentRecord at h
  by_cases hg : fcbCr m de > 127 ∨ fcbEx m de > 31 ∨ fcbS2 m de > 16 ∨
      (fcbS2 m de = 16 ∧ (fcbCr m de ≠ 0 ∨ fcbEx m de ≠ 0))
  · rw [if_pos hg] at h
    exact absurd h (by simp)
  · rw [if_neg hg] at h
    push_neg at hg
    obtain ⟨h1, h2, h3, h4⟩ := hg
    have hv : fcbCurrentRecordValue m de
        = fcbCr m de + fcbEx m de * 128 + fcbS2 m de * 4096 := by
      unfold fcbCurrentRecordValue
      exact lor3_eq_add _ _ _ (by omega) (by omega)
    have : rec = fcbCurrentRecordValue m de := by
      injection h with h5
      exact h5.symm
    rw [this, hv]
    rcases Nat.lt_or_ge (fcbS2 m de) 16 with hs | hs
    · omega
    · have hs16 : fcbS2 m de = 16 := by omega
      have := h4 hs16
      omega

/-- The DMA buffer byte at offset i after a partial or full record read:
the host file byte where the file extends, 0x1A (26) padding beyond. -/
theorem readFill_byte (m : Nat → Nat) (file : List Nat) (dma pos i : Nat)
    (hi : i < 128) (hdma : dma + 128 ≤ MEM_SIZE)
    (hfile : ∀ b ∈ file, b < 256) :
    fillMem (readIntoMem m file dma pos (min 128 (file.length - pos))) 26
        (dma + min 128 (file.length - pos)) (dma + 128) (dma + i) =
      if pos + i < file.length then file.getD (pos + i) 0 else 26 := by
  have hmem : dma + i < MEM_SIZE := by omega
  by_cases hin : i < min 128 (file.length - pos)
  · have hidx : pos + i < file.length := by omega
    have hfill : ¬ (dma + min 128 (file.length - pos) ≤ dma + i ∧
        dma + i < dma + 128 ∧ dma + i < MEM_SIZE) := by omega
    unfold fillMem
    rw [if_neg hfill]
    have hread : dma ≤ dma + i ∧ dma + i < dma + min 128 (file.length - pos) ∧
        dma + i < MEM_SIZE := by omega
    unfold readIntoMem
    rw [if_pos hread, if_pos hidx]
    have hsub : dma + i - dma = i := by omega
    rw [hsub]
    rw [List.getD_eq_getElem file 0 hidx]
    exact Nat.mod_eq_of_lt (hfile _ (List.getElem_mem hidx))
  · have hidx : ¬ (pos + i < file.length) := by omega
    have hfill : dma + min 128 (file.length - pos) ≤ dma + i ∧
        dma + i < dma + 128 ∧ dma + i < MEM_SIZE := by omega
    unfold fillMem
    rw [if_pos hfill, if_neg hidx]

/-- C1: BDOS 20 reads 128 bytes at offset currentRecord*128 from the
host fd into the DMA region: if 0 bytes were read it sets A=0x01, does
not increment currentRecord and does not modify memory (in particular
the DMA region); if at least one byte was read it sets A=0x00, fills
the DMA buffer with the file bytes padded with 0x1A, and stores the
current-record encoding of exactly rec+1; in all cases L mirrors A and
H=B=0. -/
theorem readSeq_spec (host : Host) (st : Cpm) (r : Regs) (fd rec : Nat)
    (hc : r.c = 20)
    (hfd : fcbGetFd st.mem r.de = some fd) (hfd0 : fd ≠ 0)
    (hrec : fcbGetCurrentRecord st.mem r.de = some rec)
    (hdma : st.dma + 128 ≤ MEM_SIZE)
    (hde : r.de + 36 ≤ MEM_SIZE)
    (hdisj : ∀ a, a < st.dma + 128 → st.dma ≤ a →
      a ≠ r.de + 0x0C ∧ a ≠ r.de + 0x0E ∧ a ≠ r.de + 0x20)
    (hfile : ∀ b ∈ host.fileContent, b < 256) :
    ∃ st2 r2, handleBdosCall host st r = .ok st2 r2 ∧
      r2.l = r2.a ∧ r2.h = 0 ∧ r2.b = 0 ∧
      (host.fileContent.length ≤ rec * 128 →
        r2.a = 1 ∧ st2.mem = st.mem) ∧
      (rec * 128 < host.fileContent.length →
        r2.a = 0 ∧
        (∀ i, i < 128 → st2.mem (st.dma + i) =
          if rec * 128 + i < host.fileContent.length
          then host.fileContent.getD (rec * 128 + i) 0
          else 0x1A) ∧
        fcbCurrentRecordValue st2.mem r.de = rec + 1) := by
  have hd : st.dma + RECORD_SIZE ≤ MEM_SIZE := hdma
  by_cases heof : host.fileContent.length ≤ rec * 128
  · have hbr : min RECORD_SIZE (host.fileContent.length - rec * RECORD_SIZE) = 0 := by
      unfold RECORD_SIZE
      unfold RECORD_SIZE at heof
      omega
    have hstep : handleBdosCall host st r =
        .ok st (setB 0 (setH 0 (setL 1 (setA 1 r)))) := by
      simp only [handleBdosCall, hc]
      rw [if_neg (by norm_num : ¬ ((20:Nat) = 1)), if_neg (by norm_num : ¬ ((20:Nat) = 2)),
          if_neg (by norm_num : ¬ ((20:Nat) = 5)), if_neg (by norm_num : ¬ ((20:Nat) = 6)),
          if_neg (by norm_num : ¬ ((20:Nat) = 11)), if_neg (by norm_num : ¬ ((20:Nat) = 13)),
          if_neg (by norm_num : ¬ ((20:Nat) = 14)), if_neg (by norm_num : ¬ ((20:Nat) = 15)),
          if_neg (by norm_num : ¬ ((20:Nat) = 16)), if_neg (by norm_num : ¬ ((20:Nat) = 17)),
          if_neg (by norm_num : ¬ ((20:Nat) = 18)), if_neg (by norm_num : ¬ ((20:Nat) = 19))]
      simp only [if_true, hfd]
      rw [if_neg hfd0]
      simp only [hrec]
      rw [if_pos hd, if_pos hbr]
    refine ⟨_, _, hstep, by simp [setA, setB, setH, setL], rfl, rfl, ?_, ?_⟩
    · intro _
      exact ⟨rfl, rfl⟩
    · intro hlt
      omega
  · push_neg at heof
    have hbr : ¬ (min RECORD_SIZE (host.fileContent.length - rec * RECORD_SIZE) = 0) := by
      unfold RECORD_SIZE
      omega
    have hstep : handleBdosCall host st r =
        .ok { st with mem :=
          (fcbSetCurrentRecord
            (fillMem
              (readIntoMem st.mem host.fileContent st.dma (rec * RECORD_SIZE)
                (min RECORD_SIZE (host.fileContent.length - rec * RECORD_SIZE)))
              26
              (st.dma + min RECORD_SIZE (host.fileContent.length - rec * RECORD_SIZE))
              (st.dma + RECORD_SIZE))
            r.de (rec + 1)) }
        (setB 0 (setH 0 (setL 0 (setA 0 r)))) := by
      simp only [handleBdosCall, hc]
      rw [if_neg (by norm_num : ¬ ((20:Nat) = 1)), if_neg (by norm_num : ¬ ((20:Nat) = 2)),
          if_neg (by norm_num : ¬ ((20:Nat) = 5)), if_neg (by norm_num : ¬ ((20:Nat) = 6)),
          if_neg (by norm_num : ¬ ((20:Nat) = 11)), if_neg (by norm_num : ¬ ((20:Nat) = 13)),
          if_neg (by norm_num : ¬ ((20:Nat) = 14)), if_neg (by norm_num : ¬ ((20:Nat) = 15)),
          if_neg (by norm_num : ¬ ((20:Nat) = 16)), if_neg (by norm_num : ¬ ((20:Nat) = 17)),
          if_neg (by norm_num : ¬ ((20:Nat) = 18)), if_neg (by norm_num : ¬ ((20:Nat) = 19))]
      simp only [if_true, hfd]
      rw [if_neg hfd0]
      simp only [hrec]
      rw [if_pos hd, if_neg hbr]
    refine ⟨_, _, hstep, by simp [setA, setB, setH, setL], rfl, rfl, ?_, ?_⟩
    · intro hle
      omega
    · intro _
      refine ⟨by simp [setA, setB, setH, setL], ?_, ?_⟩
      · intro i hi
        have hdisji := hdisj (st.dma + i) (by omega) (by omega)
        show fcbSetCurrentRecord _ r.de (rec + 1) (st.dma + i) = _
        rw [fcbSetCurrentRecord_other _ _ _ _ hdisji.2.2 hdisji.1 hdisji.2.1]
        have hrs : (RECORD_SIZE : Nat) = 128 := rfl
        rw [hrs]
        exact readFill_byte st.mem host.fileContent st.dma (rec * 128) i hi hdma hfile
      · have hle : rec ≤ 65536 := fcbGetCurrentRecord_le st.mem r.de rec hrec
        show fcbCurrentRecordValue (fcbSetCurrentRecord _ r.de (rec + 1)) r.de = rec + 1
        exact fcbSetCurrentRecord_roundtrip _ _ _ hde (by omega)

set_option maxRecDepth 8192 in
/-- Witness for C1: an open FCB at 0x200 (fd 5, record 0) reading a
one-byte file into the default DMA buffer. -/
theorem readSeq_spec_witness :
    ∃ st2 r2,
      handleBdosCall (Host.mk 0 none [65] none none [] false false)
        (Cpm.mk (fcbSetFd (fun _ => 0) 0x200 5) 0x80 0 (fun _ => true) [] false [] [] [] [])
        (Regs.mk 0 0 20 2 0 0 0 0xFE00) = .ok st2 r2 ∧
      r2.l = r2.a ∧ r2.h = 0 ∧ r2.b = 0 ∧
      (List.length [65] ≤ 0 * 128 →
        r2.a = 1 ∧ st2.mem = (Cpm.mk (fcbSetFd (fun _ => 0) 0x200 5) 0x80 0
          (fun _ => true) [] false [] [] [] []).mem) ∧
      (0 * 128 < List.length [65] →
        r2.a = 0 ∧
        (∀ i, i < 128 → st2.mem (0x80 + i) =
          if 0 * 128 + i < List.length [65]
          then List.getD [65] (0 * 128 + i) 0
          else 0x1A) ∧
        fcbCurrentRecordValue st2.mem (Regs.mk 0 0 20 2 0 0 0 0xFE00).de = 0 + 1) :=
  readSeq_spec (Host.mk 0 none [65] none none [] false false)
    (Cpm.mk (fcbSetFd (fun _ => 0) 0x200 5) 0x80 0 (fun _ => true) [] false [] [] [] [])
    (Regs.mk 0 0 20 2 0 0 0 0xFE00) 5 0
    (by decide) (by decide) (by decide) (by decide) (by decide) (by decide)
    (by decide) (by decide)

/-! ## C10 -/

/-- C10: a successful sequential read or write starting at a
currentRecord strictly below 65536 leaves the FCB (cr, ex, s2) fields in
a valid encoding (the getter succeeds with rec+1); a successful
sequential operation starting exactly at record 65536 stores cr=1, ex=0,
s2=16, an encoding the next currentRecord read rejects (none). -/
theorem seq_advance_validity (host : Host) (st : Cpm) (r : Regs) (fd rec : Nat)
    (hfd : fcbGetFd st.mem r.de = some fd) (hfd0 : fd ≠ 0)
    (hrec : fcbGetCurrentRecord st.mem r.de = some rec)
    (hdma : st.dma + 128 ≤ MEM_SIZE)
    (hde : r.de + 36 ≤ MEM_SIZE)
    (hwrite : host.writeResult = some 128) :
    (rec < 65536 → rec * 128 < host.fileContent.length →
      ∃ st2 r2, handleBdosCall host st { r with c := 20 } = .ok st2 r2 ∧ r2.a = 0 ∧
        fcbGetCurrentRecord st2.mem r.de = some (rec + 1)) ∧
    (rec < 65536 →
      ∃ st2 r2, handleBdosCall host st { r with c := 21 } = .ok st2 r2 ∧ r2.a = 0 ∧
        fcbGetCurrentRecord st2.mem r.de = some (rec + 1)) ∧
    (rec = 65536 → rec * 128 < host.fileContent.length →
      ∃ st2 r2, handleBdosCall host st { r with c := 20 } = .ok st2 r2 ∧ r2.a = 0 ∧
        fcbCr st2.mem r.de = 1 ∧ fcbEx st2.mem r.de = 0 ∧ fcbS2 st2.mem r.de = 16 ∧
        fcbGetCurrentRecord st2.mem r.de = none) ∧
    (rec = 65536 →
      ∃ st2 r2, handleBdosCall host st { r with c := 21 } = .ok st2 r2 ∧ r2.a = 0 ∧
        fcbCr st2.mem r.de = 1 ∧ fcbEx st2.mem r.de = 0 ∧ fcbS2 st2.mem r.de = 16 ∧
        fcbGetCurrentRecord st2.mem r.de = none) := by
  have hfdx : fcbGetFd st.mem (r.d * 256 + r.e) = some fd := hfd
  have hrecx : fcbGetCurrentRecord st.mem (r.d * 256 + r.e) = some rec := hrec
  have hd : st.dma + RECORD_SIZE ≤ MEM_SIZE := hdma
  have hstep20 : rec * 128 < host.fileContent.length →
      handleBdosCall host st { r with c := 20 } =
      .ok { st with mem :=
        (fcbSetCurrentRecord
          (fillMem
            (readIntoMem st.mem host.fileContent st.dma (rec * RECORD_SIZE)
              (min RECORD_SIZE (host.fileContent.length - rec * RECORD_SIZE)))
            26
            (st.dma + min RECORD_SIZE (host.fileContent.length - rec * RECORD_SIZE))
            (st.dma + RECORD_SIZE))
          r.de (rec + 1)) }
      (setB 0 (setH 0 (setL 0 (setA 0 { r with c := 20 })))) := by
    intro hlen
    have hbr : ¬ (min RECORD_SIZE (host.fileContent.length - rec * RECORD_SIZE) = 0) := by
      unfold RECORD_SIZE
      omega
    simp only [handleBdosCall, Regs.de]
    rw [if_neg (by norm_num : ¬ ((20:Nat) = 1)), if_neg (by norm_num : ¬ ((20:Nat) = 2)),
        if_neg (by norm_num : ¬ ((20:Nat) = 5)), if_neg (by norm_num : ¬ ((20:Nat) = 6)),
        if_neg (by norm_num : ¬ ((20:Nat) = 11)), if_neg (by norm_num : ¬ ((20:Nat) = 13)),
        if_neg (by norm_num : ¬ ((20:Nat) = 14)), if_neg (by norm_num : ¬ ((20:Nat) = 15)),
        if_neg (by norm_num : ¬ ((20:Nat) = 16)), if_neg (by norm_num : ¬ ((20:Nat) = 17)),
        if_neg (by norm_num : ¬ ((20:Nat) = 18)), if_neg (by norm_num : ¬ ((20:Nat) = 19))]
    simp only [if_true, hfdx]
    rw [if_neg hfd0]
    simp only [hrecx]
    rw [if_pos hd, if_neg hbr]
  have hstep21 : handleBdosCall host st { r with c := 21 } =
      .ok { st with mem := (fcbSetCurrentRecord st.mem r.de (rec + 1)) }
        (setA 0 { r with c := 21 }) := by
    simp only [handleBdosCall, Regs.de]
    rw [if_neg (by norm_num : ¬ ((21:Nat) = 1)), if_neg (by norm_num : ¬ ((21:Nat) = 2)),
        if_neg (by norm_num : ¬ ((21:Nat) = 5)), if_neg (by norm_num : ¬ ((21:Nat) = 6)),
        if_neg (by norm_num : ¬ ((21:Nat) = 11)), if_neg (by norm_num : ¬ ((21:Nat) = 13)),
        if_neg (by norm_num : ¬ ((21:Nat) = 14)), if_neg (by norm_num : ¬ ((21:Nat) = 15)),
        if_neg (by norm_num : ¬ ((21:Nat) = 16)), if_neg (by norm_num : ¬ ((21:Nat) = 17)),
        if_neg (by norm_num : ¬ ((21:Nat) = 18)), if_neg (by norm_num : ¬ ((21:Nat) = 19)),
        if_neg (by norm_num : ¬ ((21:Nat) = 20))]
    simp only [if_true, hfdx]
    rw [if_neg hfd0]
    simp only [hrecx]
    rw [if_pos hd]
    simp only [hwrite]
    rw [if_neg (by norm_num [RECORD_SIZE] : ¬ ((128:Nat) ≠ RECORD_SIZE))]
  refine ⟨?_, ?_, ?_, ?_⟩
  · intro hlt hlen
    refine ⟨_, _, hstep20 hlen, by simp [setA, setB, setH, setL], ?_⟩
    show fcbGetCurrentRecord (fcbSetCurrentRecord _ r.de (rec + 1)) r.de = some (rec + 1)
    exact fcbSetCurrentRecord_get _ _ _ hde (by omega)
  · intro hlt
    refine ⟨_, _, hstep21, by simp [setA], ?_⟩
    show fcbGetCurrentRecord (fcbSetCurrentRecord _ r.de (rec + 1)) r.de = some (rec + 1)
    exact fcbSetCurrentRecord_get _ _ _ hde (by omega)
  · intro h65 hlen
    refine ⟨_, _, hstep20 hlen, by simp [setA, setB, setH, setL], ?_⟩
    have h1 : rec + 1 = 65537 := by omega
    rw [h1]
    exact fcbSetCurrentRecord_invalid
      (fillMem
        (readIntoMem st.mem host.fileContent st.dma (rec * RECORD_SIZE)
          (min RECORD_SIZE (host.fileContent.length - rec * RECORD_SIZE)))
        26
        (st.dma + min RECORD_SIZE (host.fileContent.length - rec * RECORD_SIZE))
        (st.dma + RECORD_SIZE)) r.de hde
  · intro h65
    refine ⟨_, _, hstep21, by simp [setA], ?_⟩
    have h1 : rec + 1 = 65537 := by omega
    rw [h1]
    exact fcbSetCurrentRecord_invalid st.mem r.de hde

/-- Witness for C10 at record 0 (below 65536) for the read conjunct and
the write conjunct, FCB at 0x200 with fd 5, one-byte host file. -/
theorem seq_advance_validity_witness :
    ((0:Nat) < 65536 → 0 * 128 < List.length [65] →
      ∃ st2 r2, handleBdosCall (Host.mk 0 none [65] (some 128) none [] false false)
        (Cpm.mk (fcbSetFd (fun _ => 0) 0x200 5) 0x80 0 (fun _ => true) [] false [] [] [] [])
        { Regs.mk 0 0 0 2 0 0 0 0xFE00 with c := 20 } = .ok st2 r2 ∧ r2.a = 0 ∧
        fcbGetCurrentRecord st2.mem (Regs.mk 0 0 0 2 0 0 0 0xFE00).de = some (0 + 1)) ∧
    ((0:Nat) < 65536 →
      ∃ st2 r2, handleBdosCall (Host.mk 0 none [65] (some 128) none [] false false)
        (Cpm.mk (fcbSetFd (fun _ => 0) 0x200 5) 0x80 0 (fun _ => true) [] false [] [] [] [])
        { Regs.mk 0 0 0 2 0 0 0 0xFE00 with c := 21 } = .ok st2 r2 ∧ r2.a = 0 ∧
        fcbGetCurrentRecord st2.mem (Regs.mk 0 0 0 2 0 0 0 0xFE00).de = some (0 + 1)) ∧
    ((0:Nat) = 65536 → 0 * 128 < List.length [65] →
      ∃ st2 r2, handleBdosCall (Host.mk 0 none [65] (some 128) none [] false false)
        (Cpm.mk (fcbSetFd (fun _ => 0) 0x200 5) 0x80 0 (fun _ => true) [] false [] [] [] [])
        { Regs.mk 0 0 0 2 0 0 0 0xFE00 with c := 20 } = .ok st2 r2 ∧ r2.a = 0 ∧
        fcbCr st2.mem (Regs.mk 0 0 0 2 0 0 0 0xFE00).de = 1 ∧
        fcbEx st2.mem (Regs.mk 0 0 0 2 0 0 0 0xFE00).de = 0 ∧
        fcbS2 st2.mem (Regs.mk 0 0 0 2 0 0 0 0xFE00).de = 16 ∧
        fcbGetCurrentRecord st2.mem (Regs.mk 0 0 0 2 0 0 0 0xFE00).de = none) ∧
    ((0:Nat) = 65536 →
      ∃ st2 r2, handleBdosCall (Host.mk 0 none [65] (some 128) none [] false false)
        (Cpm.mk (fcbSetFd (fun _ => 0) 0x200 5) 0x80 0 (fun _ => true) [] false [] [] [] [])
        { Regs.mk 0 0 0 2 0 0 0 0xFE00 with c := 21 } = .ok st2 r2 ∧ r2.a = 0 ∧
        fcbCr st2.mem (Regs.mk 0 0 0 2 0 0 0 0xFE00).de = 1 ∧
        fcbEx st2.mem (Regs.mk 0 0 0 2 0 0 0 0xFE00).de = 0 ∧
        fcbS2 st2.mem (Regs.mk 0 0 0 2 0 0 0 0xFE00).de = 16 ∧
        fcbGetCurrentRecord st2.mem (Regs.mk 0 0 0 2 0 0 0 0xFE00).de = none) :=
  seq_advance_validity (Host.mk 0 none [65] (some 128) none [] false false)
    (Cpm.mk (fcbSetFd (fun _ => 0) 0x200 5) 0x80 0 (fun _ => true) [] false [] [] [] [])
    (Regs.mk 0 0 0 2 0 0 0 0xFE00) 5 0
    (by decide) (by decide) (by decide) (by decide) (by decide) (by decide)

/-! ## C5: the directory iterator "yield next" -/

/-- Modelled from the claim text of C5 (spec section 4.7): the byte the
claim predicts at dma+i after yielding filename f, with the base name
copied "at most 8 bytes" and the extension "at most 3 bytes". Used only
to exhibit the divergence from the code, which copies both in full. -/
def c5ClaimByte (f : List Nat) (i : Nat) : Nat :=
  let p := parseNameExt f
  let name := p.1
  let ext := extWithoutDot p.2
  if i = 0 then 0
  else if 1 ≤ i ∧ i ≤ 8 ∧ i - 1 < min 8 name.length then name.getD (i - 1) 0
  else if 9 ≤ i ∧ i ≤ 11 ∧ i - 9 < min 3 ext.length then ext.getD (i - 9) 0
  else if 1 ≤ i ∧ i < 12 then 0x20
  else if i < 32 then 0
  else if i < 128 then 0xE5
  else 0

set_option maxRecDepth 8192 in
/-- Counterexample to C5 as stated: yielding the 10-character base name
"ABCDEFGHIJ.X" writes the byte 74 (the tenth name character, J) at
dma+10, where the claimed at-most-8-byte name copy plus space fill would
leave 0x20. -/
theorem searchNext_claim_cex :
    (searchForNextDirEntry
        (Cpm.mk (fun _ => 0) 0x80 0 (fun _ => true) [] false
          [[65, 66, 67, 68, 69, 70, 71, 72, 73, 74, 46, 88]] [] [] [])
        (Regs.mk 0 0 18 0 0 0 0 0xFE00)).1.mem (0x80 + 10) = 74 ∧
    c5ClaimByte [65, 66, 67, 68, 69, 70, 71, 72, 73, 74, 46, 88] 10 = 0x20 ∧
    (74 : Nat) ≠ 0x20 := by
  refine ⟨by decide, by decide, by decide⟩

/-- C5 amended: "yield next" with a non-empty entry list pops the head
filename, zeroes [dma, dma+32), fills [dma+32, dma+128) with 0xE5, fills
[dma+1, dma+12) with 0x20, then copies the ENTIRE base name to dma+1..
(name.length bytes, with no 8-byte cap) and after it the ENTIRE
extension without its dot to dma+9.. (no 3-byte cap; extension bytes
overwrite name bytes where the regions overlap, being written later),
and sets A=0x00; with an empty list it sets A=0xFF and changes nothing
else. -/
theorem searchNext_spec (st : Cpm) (r : Regs) (f : List Nat) (rest : List (List Nat))
    (hdir : st.dirEntries = f :: rest)
    (hdma : st.dma + 128 ≤ MEM_SIZE) :
    (searchForNextDirEntry st r).2 = setA 0 r ∧
    (searchForNextDirEntry st r).1.dirEntries = rest ∧
    (∀ a, a < MEM_SIZE →
      (searchForNextDirEntry st r).1.mem a =
        (if st.dma + 9 ≤ a ∧ a < st.dma + 9 + (extWithoutDot (parseNameExt f).2).length
         then (extWithoutDot (parseNameExt f).2).getD (a - (st.dma + 9)) 0 % 256
         else if st.dma + 1 ≤ a ∧ a < st.dma + 1 + (parseNameExt f).1.length
         then (parseNameExt f).1.getD (a - (st.dma + 1)) 0 % 256
         else if st.dma + 1 ≤ a ∧ a < st.dma + 12 then 0x20
         else if st.dma ≤ a ∧ a < st.dma + 32 then 0
         else if st.dma + 32 ≤ a ∧ a < st.dma + 128 then 0xE5
         else st.mem a)) ∧
    (∀ stE rE, stE.dirEntries = ([] : List (List Nat)) →
      searchForNextDirEntry stE rE = (stE, setA 0xFF rE)) := by
  refine ⟨?_, ?_, ?_, ?_⟩
  · unfold searchForNextDirEntry
    rw [hdir]
  · unfold searchForNextDirEntry
    rw [hdir]
  · intro a ha
    unfold searchForNextDirEntry
    rw [hdir]
    show dirEntryWrite f st.dma st.mem a = _
    unfold dirEntryWrite
    rw [copyBytes_eq, copyBytes_eq]
    unfold fillMem
    split_ifs <;> first | rfl | omega
  · intro stE rE hE
    unfold searchForNextDirEntry
    rw [hE]

/-- Witness for the amended C5 at the concrete filename "A.B" in a
one-entry directory iterator over zeroed memory. -/
theorem searchNext_spec_witness :
    (searchForNextDirEntry
        (Cpm.mk (fun _ => 0) 0x80 0 (fun _ => true) [] false [[65, 46, 66]] [] [] [])
        (Regs.mk 0 0 18 0 0 0 0 0xFE00)).2 = setA 0 (Regs.mk 0 0 18 0 0 0 0 0xFE00) ∧
    (searchForNextDirEntry
        (Cpm.mk (fun _ => 0) 0x80 0 (fun _ => true) [] false [[65, 46, 66]] [] [] [])
        (Regs.mk 0 0 18 0 0 0 0 0xFE00)).1.dirEntries = [] ∧
    (∀ a, a < MEM_SIZE →
      (searchForNextDirEntry
          (Cpm.mk (fun _ => 0) 0x80 0 (fun _ => true) [] false [[65, 46, 66]] [] [] [])
          (Regs.mk 0 0 18 0 0 0 0 0xFE00)).1.mem a =
        (if 0x80 + 9 ≤ a ∧ a < 0x80 + 9 + (extWithoutDot (parseNameExt [65, 46, 66]).2).length
         then (extWithoutDot (parseNameExt [65, 46, 66]).2).getD (a - (0x80 + 9)) 0 % 256
         else if 0x80 + 1 ≤ a ∧ a < 0x80 + 1 + (parseNameExt [65, 46, 66]).1.length
         then (parseNameExt [65, 46, 66]).1.getD (a - (0x80 + 1)) 0 % 256
         else if 0x80 + 1 ≤ a ∧ a < 0x80 + 12 then 0x20
         else if 0x80 ≤ a ∧ a < 0x80 + 32 then 0
         else if 0x80 + 32 ≤ a ∧ a < 0x80 + 128 then 0xE5
         else (fun _ => (0 : Nat)) a)) ∧
    (∀ stE rE, stE.dirEntries = ([] : List (List Nat)) →
      searchForNextDirEntry stE rE = (stE, setA 0xFF rE)) :=
  searchNext_spec
    (Cpm.mk (fun _ => 0) 0x80 0 (fun _ => true) [] false [[65, 46, 66]] [] [] [])
    (Regs.mk 0 0 18 0 0 0 0 0xFE00) [65, 46, 66] [] (by decide) (by decide)

/-! ## C6: the SEARCH FIRST / SEARCH NEXT sequence -/

theorem lexLe_total (x : List Nat) : ∀ y, lexLe x y = true ∨ lexLe y x = true := by
  induction x with
  | nil =>
    intro y
    left
    rfl
  | cons a xs ih =>
    intro y
    cases y with
    | nil =>
      right
      rfl
    | cons b ys =>
      show lexLe (a :: xs) (b :: ys) = true ∨ lexLe (b :: ys) (a :: xs) = true
      unfold lexLe
      rcases Nat.lt_trichotomy a b with h | h | h
      · left
        rw [if_pos h]
      · subst h
        have hlt : ¬ (a < a) := by omega
        rw [if_neg hlt, if_neg hlt, if_neg hlt, if_neg hlt]
        exact ih ys
      · right
        rw [if_pos h]

theorem lexLe_trans (x : List Nat) : ∀ y z, lexLe x y = true → lexLe y z = true →
    lexLe x z = true := by
  induction x with
  | nil =>
    intro y z h1 h2
    rfl
  | cons a xs ih =>
    intro y z h1 h2
    cases y with
    | nil => exact absurd h1 (by simp [lexLe])
    | cons b ys =>
      cases z with
      | nil => exact absurd h2 (by simp [lexLe])
      | cons c zs =>
        unfold lexLe at h1 h2 ⊢
        by_cases hab : a < b
        · rw [if_pos hab] at h1
          by_cases hbc : b < c
          · rw [if_pos (by omega : a < c)]
          · rw [if_neg hbc] at h2
            by_cases hcb : c < b
            · rw [if_pos hcb] at h2
              exact absurd h2 (by simp)
            · have hbceq : b = c := by omega
              subst hbceq
              rw [if_pos hab]
        · rw [if_neg hab] at h1
          by_cases hba : b < a
          · rw [if_pos hba] at h1
            exact absurd h1 (by simp)
          · rw [if_neg hba] at h1
            have habeq : a = b := by omega
            subst habeq
            by_cases hbc : a < c
            · rw [if_pos hbc] at h2 ⊢
            · rw [if_neg hbc] at h2 ⊢
              by_cases hcb : c < a
              · rw [if_pos hcb] at h2
                exact absurd h2 (by simp)
              · rw [if_neg hcb] at h2 ⊢
                exact ih ys zs h1 h2

instance : IsTotal (List Nat) lexLeP := ⟨fun a b => lexLe_total a b⟩

instance : IsTrans (List Nat) lexLeP := ⟨fun a b c => lexLe_trans a b c⟩

theorem sortNames_sorted (l : List (List Nat)) : List.Sorted lexLeP (sortNames l) :=
  List.sorted_insertionSort lexLeP l

theorem sortNames_perm (l : List (List Nat)) : (sortNames l).Perm l :=
  List.perm_insertionSort lexLeP l

/-- A sorted list of distinct names is strictly ascending. -/
theorem sortNames_pairwise_lt (l : List (List Nat)) (h : l.Nodup) :
    List.Pairwise lexLt (sortNames l) := by
  have hs : List.Pairwise lexLeP (sortNames l) := sortNames_sorted l
  have hn : (sortNames l).Nodup := ((sortNames_perm l).nodup_iff).mpr h
  exact hs.and hn

/-- Taking the ok result of a call, as the scheduler does. -/
def nextOk (p : Cpm × Regs) (res : BdosResult) : Cpm × Regs :=
  match res with
  | .ok s r2 => (s, r2)
  | _ => p

/-- The call sequence of C6: call 0 is BDOS 17 (SEARCH FIRST), every
following call is BDOS 18 (SEARCH NEXT) on the resulting state. -/
def searchSeq (host : Host) (st : Cpm) (r : Regs) : Nat → Cpm × Regs
  | 0 => nextOk (st, r) (handleBdosCall host st { r with c := 17 })
  | i + 1 =>
    nextOk (searchSeq host st r i)
      (handleBdosCall host (searchSeq host st r i).1
        { (searchSeq host st r i).2 with c := 18 })

theorem bdos18_eq (host : Host) (s : Cpm) (rr : Regs) (hc : rr.c = 18) :
    handleBdosCall host s rr =
      .ok (searchForNextDirEntry s rr).1 (searchForNextDirEntry s rr).2 := by
  simp only [handleBdosCall, hc]
  rw [if_neg (by norm_num : ¬ ((18:Nat) = 1)), if_neg (by norm_num : ¬ ((18:Nat) = 2)),
      if_neg (by norm_num : ¬ ((18:Nat) = 5)), if_neg (by norm_num : ¬ ((18:Nat) = 6)),
      if_neg (by norm_num : ¬ ((18:Nat) = 11)), if_neg (by norm_num : ¬ ((18:Nat) = 13)),
      if_neg (by norm_num : ¬ ((18:Nat) = 14)), if_neg (by norm_num : ¬ ((18:Nat) = 15)),
      if_neg (by norm_num : ¬ ((18:Nat) = 16)), if_neg (by norm_num : ¬ ((18:Nat) = 17))]
  simp only [if_true]

theorem bdos17_eq (host : Host) (s : Cpm) (rr : Regs) (hc : rr.c = 17)
    (hmap : getDriveDirOk s s.mem (rr.d * 256 + rr.e) = true) :
    handleBdosCall host s rr =
      .ok (searchForNextDirEntry
            { s with dirEntries := sortNames (regularFiles host.dirList) } rr).1
          (searchForNextDirEntry
            { s with dirEntries := sortNames (regularFiles host.dirList) } rr).2 := by
  simp only [handleBdosCall, hc, Regs.de]
  rw [if_neg (by norm_num : ¬ ((17:Nat) = 1)), if_neg (by norm_num : ¬ ((17:Nat) = 2)),
      if_neg (by norm_num : ¬ ((17:Nat) = 5)), if_neg (by norm_num : ¬ ((17:Nat) = 6)),
      if_neg (by norm_num : ¬ ((17:Nat) = 11)), if_neg (by norm_num : ¬ ((17:Nat) = 13)),
      if_neg (by norm_num : ¬ ((17:Nat) = 14)), if_neg (by norm_num : ¬ ((17:Nat) = 15)),
      if_neg (by norm_num : ¬ ((17:Nat) = 16))]
  simp only [if_true]
  rw [if_pos hmap]

/-- The running invariant of the search sequence: after call i the
iterator holds the sorted entries beyond i, the DMA pointer is
unchanged, calls with entries remaining yield A=0 and write entry i at
the DMA buffer, and calls past the end yield A=0xFF leaving memory as it
was. -/
theorem searchSeq_inv (host : Host) (st : Cpm) (r : Regs)
    (hmap : getDriveDirOk st st.mem r.de = true)
    (es : List (List Nat)) (hes : es = sortNames (regularFiles host.dirList)) :
    ∀ i,
      (searchSeq host st r i).1.dirEntries = es.drop (i + 1) ∧
      (searchSeq host st r i).1.dma = st.dma ∧
      (i < es.length →
        (searchSeq host st r i).2.a = 0 ∧
        (searchSeq host st r i).1.mem = dirEntryWrite (es.getD i []) st.dma
          (match i with | 0 => st.mem | j + 1 => (searchSeq host st r j).1.mem)) ∧
      (es.length ≤ i →
        (searchSeq host st r i).2.a = 0xFF ∧
        (searchSeq host st r i).1.mem =
          (match i with | 0 => st.mem | j + 1 => (searchSeq host st r j).1.mem)) := by
  intro i
  induction i with
  | zero =>
    have hmapx : getDriveDirOk st st.mem
        (({ r with c := 17 } : Regs).d * 256 + ({ r with c := 17 } : Regs).e) = true := hmap
    simp only [searchSeq]
    rw [bdos17_eq host st _ rfl hmapx]
    simp only [nextOk]
    rw [← hes]
    cases he : es with
    | nil =>
      subst he
      simp only [searchForNextDirEntry]
      refine ⟨by trivial, by trivial, ?_, ?_⟩
      · intro hlt
        simp at hlt
      · intro _
        exact ⟨by trivial, by trivial⟩
    | cons g rest =>
      subst he
      simp only [searchForNextDirEntry]
      refine ⟨by trivial, by trivial, ?_, ?_⟩
      · intro _
        exact ⟨by trivial, by trivial⟩
      · intro hge
        simp at hge
  | succ j ih =>
    obtain ⟨ihDir, ihDma, ihLt, ihGe⟩ := ih
    simp only [searchSeq]
    rw [bdos18_eq host _ _ rfl]
    simp only [nextOk]
    cases hd : es.drop (j + 1) with
    | nil =>
      have hlen : es.length ≤ j + 1 := List.drop_eq_nil_iff.mp hd
      have hnil2 : es.drop (j + 1 + 1) = [] := by
        rw [List.drop_eq_nil_iff]
        omega
      simp only [searchForNextDirEntry, ihDir, hd]
      refine ⟨by rw [hnil2], ihDma, ?_, ?_⟩
      · intro hlt
        omega
      · intro _
        exact ⟨by trivial, by trivial⟩
    | cons g rest2 =>
      have hlen : j + 1 < es.length := by
        by_contra hc
        push_neg at hc
        rw [List.drop_eq_nil_iff.mpr hc] at hd
        exact absurd hd (by simp)
      have hdrop2 : es.drop (j + 1 + 1) = rest2 := by
        have h2 := congrArg (List.drop 1) hd
        rw [List.drop_drop] at h2
        simpa using h2
      have hget : es.getD (j + 1) [] = g := by
        have hcons := List.drop_eq_getElem_cons hlen
        rw [hd] at hcons
        have hg : g = es[j + 1] := by
          injection hcons.symm with h5 h6
          exact h5.symm
        rw [List.getD_eq_getElem es [] hlen, ← hg]
      simp only [searchForNextDirEntry, ihDir, hd]
      refine ⟨?_, ihDma, ?_, ?_⟩
      · exact hdrop2.symm
      · intro _
        refine ⟨by trivial, ?_⟩
        rw [hget, ihDma]
      · intro hge
        omega

/-- C6: for a host directory with N regular files, the BDOS 17 call
followed by successive BDOS 18 calls yields exactly the regular-file
names in strictly ascending case-sensitive order (call i, for i below N,
returns A=0 and writes the i-th sorted entry at the DMA buffer), and the
(N+1)-th call in the sequence (index N, counting the SEARCH FIRST as
call 0) returns A=0xFF leaving all guest memory unchanged. -/
theorem search_sequence_spec (host : Host) (st : Cpm) (r : Regs)
    (hmap : getDriveDirOk st st.mem r.de = true)
    (hnodup : (regularFiles host.dirList).Nodup)
    (es : List (List Nat)) (hes : es = sortNames (regularFiles host.dirList)) :
    List.Pairwise lexLt es ∧
    es.Perm (regularFiles host.dirList) ∧
    (∀ i, i < es.length →
      (searchSeq host st r i).2.a = 0 ∧
      (searchSeq host st r i).1.mem = dirEntryWrite (es.getD i []) st.dma
        (match i with | 0 => st.mem | j + 1 => (searchSeq host st r j).1.mem)) ∧
    ((searchSeq host st r es.length).2.a = 0xFF ∧
     (searchSeq host st r es.length).1.mem =
        (match es.length with | 0 => st.mem | j + 1 => (searchSeq host st r j).1.mem)) := by
  have hinv := searchSeq_inv host st r hmap es hes
  refine ⟨?_, ?_, ?_, ?_⟩
  · rw [hes]
    exact sortNames_pairwise_lt _ hnodup
  · rw [hes]
    exact sortNames_perm _
  · intro i hi
    exact (hinv i).2.2.1 hi
  · exact (hinv es.length).2.2.2 (Nat.le_refl _)

/-- Witness for C6 on a two-file directory ("B.T" and "A.D", both
regular) with one non-file entry, over a drive-mapped zeroed state. -/
theorem search_sequence_spec_witness :
    List.Pairwise lexLt (sortNames (regularFiles
        [([66, 46, 84], true), ([68], false), ([65, 46, 68], true)])) ∧
    (sortNames (regularFiles [([66, 46, 84], true), ([68], false), ([65, 46, 68], true)])).Perm
      (regularFiles [([66, 46, 84], true), ([68], false), ([65, 46, 68], true)]) ∧
    (∀ i, i < (sortNames (regularFiles
        [([66, 46, 84], true), ([68], false), ([65, 46, 68], true)])).length →
      (searchSeq (Host.mk 0 none [] none none
          [([66, 46, 84], true), ([68], false), ([65, 46, 68], true)] false false)
        (Cpm.mk (fun _ => 0) 0x80 0 (fun _ => true) [] false [] [] [] [])
        (Regs.mk 0 0 17 0 0 0 0 0xFE00) i).2.a = 0 ∧
      (searchSeq (Host.mk 0 none [] none none
          [([66, 46, 84], true), ([68], false), ([65, 46, 68], true)] false false)
        (Cpm.mk (fun _ => 0) 0x80 0 (fun _ => true) [] false [] [] [] [])
        (Regs.mk 0 0 17 0 0 0 0 0xFE00) i).1.mem =
        dirEntryWrite ((sortNames (regularFiles
          [([66, 46, 84], true), ([68], false), ([65, 46, 68], true)])).getD i []) 0x80
          (match i with
           | 0 => (fun _ => 0)
           | j + 1 => (searchSeq (Host.mk 0 none [] none none
               [([66, 46, 84], true), ([68], false), ([65, 46, 68], true)] false false)
             (Cpm.mk (fun _ => 0) 0x80 0 (fun _ => true) [] false [] [] [] [])
             (Regs.mk 0 0 17 0 0 0 0 0xFE00) j).1.mem)) ∧
    ((searchSeq (Host.mk 0 none [] none none
          [([66, 46, 84], true), ([68], false), ([65, 46, 68], true)] false false)
        (Cpm.mk (fun _ => 0) 0x80 0 (fun _ => true) [] false [] [] [] [])
        (Regs.mk 0 0 17 0 0 0 0 0xFE00)
        (sortNames (regularFiles
          [([66, 46, 84], true), ([68], false), ([65, 46, 68], true)])).length).2.a = 0xFF ∧
     (searchSeq (Host.mk 0 none [] none none
          [([66, 46, 84], true), ([68], false), ([65, 46, 68], true)] false false)
        (Cpm.mk (fun _ => 0) 0x80 0 (fun _ => true) [] false [] [] [] [])
        (Regs.mk 0 0 17 0 0 0 0 0xFE00)
        (sortNames (regularFiles
          [([66, 46, 84], true), ([68], false), ([65, 46, 68], true)])).length).1.mem =
        (match (sortNames (regularFiles
            [([66, 46, 84], true), ([68], false), ([65, 46, 68], true)])).length with
         | 0 => (fun _ => 0)
         | j + 1 => (searchSeq (Host.mk 0 none [] none none
             [([66, 46, 84], true), ([68], false), ([65, 46, 68], true)] false false)
           (Cpm.mk (fun _ => 0) 0x80 0 (fun _ => true) [] false [] [] [] [])
           (Regs.mk 0 0 17 0 0 0 0 0xFE00) j).1.mem)) :=
  search_sequence_spec
    (Host.mk 0 none [] none none
      [([66, 46, 84], true), ([68], false), ([65, 46, 68], true)] false false)
    (Cpm.mk (fun _ => 0) 0x80 0 (fun _ => true) [] false [] [] [] [])
    (Regs.mk 0 0 17 0 0 0 0 0xFE00) (by decide) (by decide) _ rfl

end CpmEmu
